import Mathlib

/-!
Verification of the SPIR-V code generator in
`src/compiler/translator/OutputSPIRV.cpp` (the `OutputSPIRVTraverser`).

The development is a shallow embedding: each C++ function of the generator
is rendered as a pure Lean function; the mutable traverser state (the
SPIR-V builder with its monotonically allocated result ids and the current
function block, plus the per-node synthesis records) is threaded
explicitly.  Fallible code (paths guarded by ASSERTs whose failure the
claims talk about, and C++ out-of-bounds vector writes, which are
undefined behavior) returns `Option`.

The `SPIRVBuilder` collaborator (`BuildSPIRV.h/.cpp`) is not part of the
sources; its operations used here (fresh-id allocation, idempotent
type/constant interning, variable declaration, block bookkeeping) are
modelled from the spec, section 4.1.  Ids are plain naturals; id 0 is the
invalid sentinel exactly as `spirv::IdRef` treats a zero id.
-/

namespace AngleSpirv

/-- SPIR-V storage classes used by the generator.  `Max` is the sentinel
`spv::StorageClassMax` that `AccessChain` uses to mean "rvalue". -/
inductive StorageClass where
  | Function
  | Private
  | Input
  | Output
  | Uniform
  | UniformConstant
  | Workgroup
  | PushConstant
  | StorageBuffer
  | Max
  deriving DecidableEq, Repr

/-- GLSL parameter qualifiers relevant to function-call lowering. -/
inductive Qualifier where
  | qConst
  | qIn
  | qOut
  | qInOut
  deriving DecidableEq, Repr

/-- GLSL basic types the constructor synthesizer switches over. -/
inductive BasicType where
  | float
  | int
  | uint
  | bool
  deriving DecidableEq, Repr

/-- Interned scalar constants.  Float constants are tokenized by a natural
number (the generator only ever makes the float constants 0.0 and 1.0 in
the code under study, rendered as tokens 0 and 1); distinct tokens denote
distinct float values. -/
inductive ConstVal where
  | uint (value : Nat)
  | int (value : Int)
  | float (valueTok : Nat)
  | bool (value : Bool)
  deriving DecidableEq, Repr

/-- Keys for the builder's idempotent type interning (spec section 4.1):
pointer types and the uint scalar/vector types the access-chain engine
requests. -/
inductive TypeKey where
  | pointer (pointee : Nat) (sc : StorageClass)
  | uintScalar
  | uintVec (size : Nat)
  deriving DecidableEq, Repr

/-- Atomic opcodes selected by `createAtomicBuiltIn`'s switch. -/
inductive AtomicOpcode where
  | IAdd
  | SMin
  | UMin
  | SMax
  | UMax
  | BAnd
  | BOr
  | BXor
  | Exchange
  deriving DecidableEq, Repr

/-- Identifier of a binary arithmetic opcode as chosen by `visitBinary`
(only the ones the modelled traversal exercises). -/
inductive ArithTag where
  | fAdd
  | iAdd
  | fMul
  | iMul
  deriving DecidableEq, Repr

/-- SPIR-V instructions the generator writes into the current function
block (or, for `opConstantComposite` and variables, into the module-level
sections). -/
inductive Instr where
  | opAccessChain (typePointerId result base : Nat) (indices : List Nat)
  | opLoad (typeId result pointer : Nat)
  | opStore (pointer value : Nat)
  | opCompositeExtract (typeId result base : Nat) (literals : List Nat)
  | opCompositeConstruct (typeId result : Nat) (constituents : List Nat)
  | opVectorShuffle (typeId result vec1 vec2 : Nat) (components : List Nat)
  | opVectorExtractDynamic (typeId result vector index : Nat)
  | opFunctionCall (typeId result functionId : Nat) (arguments : List Nat)
  | opAtomic (opcode : AtomicOpcode) (typeId result pointer scope semantics value : Nat)
  | opAtomicCompareExchange
      (typeId result pointer scope semanticsEqual semanticsUnequal value comparator : Nat)
  | opConstantComposite (typeId result : Nat) (constituents : List Nat)
  | opBinary (tag : ArithTag) (typeId result operand1 operand2 : Nat)
  | opSelectionMerge (mergeBlock : Nat)
  | opBranchConditional (condition trueBlock falseBlock : Nat)
  | opBranch (target : Nat)
  | opReturn
  | opReturnValue (value : Nat)
  deriving DecidableEq, Repr

/-- Modelled from the spec: the SPIR-V builder state (spec section 4.1).
`nextId` is the strictly monotonic fresh-id source; `constTable` and
`typeTable` are the idempotent interning tables; `typeConstantDecls` is
the type/constant declaration section; `variableDecls` records
`declare_variable` calls as (id, typeId, storage class); `block` is the
current (unterminated) function block; `doneBlocks` are finished blocks
of the current function in creation order; `condStack` holds the
pre-allocated block ids of active conditionals. -/
structure Builder where
  nextId : Nat
  constTable : List (ConstVal × Nat)
  typeTable : List (TypeKey × Nat)
  typeConstantDecls : List Instr
  variableDecls : List (Nat × Nat × StorageClass)
  block : List Instr
  doneBlocks : List (List Instr)
  condStack : List (List Nat)
  terminated : Bool
  deriving DecidableEq, Repr

/-- Modelled from the spec: a fresh builder, handing out ids from 1 (id 0
is the invalid sentinel). -/
def Builder.init : Builder := ⟨1, [], [], [], [], [], [], [], false⟩

/-- Modelled from the spec: `fresh_id()`, strictly monotonic. -/
def Builder.getNewId (b : Builder) : Nat × Builder :=
  (b.nextId, { b with nextId := b.nextId + 1 })

/-- Append one instruction to the current function block. -/
def Builder.emit (b : Builder) (i : Instr) : Builder :=
  { b with block := b.block ++ [i] }

/-- Modelled from the spec: idempotent constant interning, structural. -/
def Builder.internConst (b : Builder) (v : ConstVal) : Nat × Builder :=
  match b.constTable.lookup v with
  | some i => (i, b)
  | none =>
      (b.nextId,
       { b with
           nextId := b.nextId + 1
           constTable := b.constTable ++ [(v, b.nextId)] })

/-- Modelled from the spec: `getUintConstant`. -/
def Builder.getUintConstant (b : Builder) (v : Nat) : Nat × Builder :=
  b.internConst (ConstVal.uint v)

/-- Modelled from the spec: `getIntConstant`. -/
def Builder.getIntConstant (b : Builder) (v : Int) : Nat × Builder :=
  b.internConst (ConstVal.int v)

/-- Modelled from the spec: `getFloatConstant` (tokenized, see `ConstVal`). -/
def Builder.getFloatConstant (b : Builder) (v : Nat) : Nat × Builder :=
  b.internConst (ConstVal.float v)

/-- Modelled from the spec: `getBoolConstant`. -/
def Builder.getBoolConstant (b : Builder) (v : Bool) : Nat × Builder :=
  b.internConst (ConstVal.bool v)

/-- Modelled from the spec: idempotent type interning. -/
def Builder.internType (b : Builder) (k : TypeKey) : Nat × Builder :=
  match b.typeTable.lookup k with
  | some i => (i, b)
  | none =>
      (b.nextId,
       { b with
           nextId := b.nextId + 1
           typeTable := b.typeTable ++ [(k, b.nextId)] })

/-- Modelled from the spec: `getTypePointerId`, idempotent on the
(pointee, storage class) pair. -/
def Builder.getTypePointerId (b : Builder) (pointee : Nat) (sc : StorageClass) : Nat × Builder :=
  b.internType (TypeKey.pointer pointee sc)

/-- Modelled from the spec: `declareVariable` allocates a fresh id and
records an `OpVariable` of the given type in the given storage class. -/
def Builder.declareVariable (b : Builder) (typeId : Nat) (sc : StorageClass) : Nat × Builder :=
  let p := b.getNewId
  (p.1, { p.2 with variableDecls := p.2.variableDecls ++ [(p.1, typeId, sc)] })

/-- Modelled from the spec: `terminateCurrentFunctionBlock` moves the
current block into the finished list. -/
def Builder.terminateBlock (b : Builder) : Builder :=
  { b with doneBlocks := b.doneBlocks ++ [b.block], block := [], terminated := true }

/-- Modelled from the spec: begin writing the next (pre-allocated) block,
as `startNewFunction` / `nextConditionalBlock` do. -/
def Builder.startBlock (b : Builder) : Builder :=
  { b with terminated := false }

/-- An id is valid when nonzero, exactly as `spirv::IdRef::valid()`. -/
def idValid (i : Nat) : Bool := i != 0

/-- The layout qualifier tracked as `baseBlockStorage` in the access chain. -/
inductive BlockStorage where
  | unspecified
  | std140
  | std430
  deriving DecidableEq, Repr

/-- The deferred-addressing state, a faithful rendering of `struct
AccessChain` in OutputSPIRV.cpp.  Ids that the C++ keeps as possibly
invalid `spirv::IdRef`s (`dynamicComponent`, `postSwizzleTypeId`,
`postDynamicComponentTypeId`, `accessChainId`) are naturals where 0 means
invalid. -/
structure AccessChain where
  storageClass : StorageClass
  swizzles : List Nat
  dynamicComponent : Nat
  preSwizzleTypeId : Nat
  postSwizzleTypeId : Nat
  postDynamicComponentTypeId : Nat
  accessChainId : Nat
  areAllIndicesLiteral : Bool
  swizzledVectorComponentCount : Nat
  baseBlockStorage : BlockStorage
  deriving DecidableEq, Repr

/-- Default-initialized access chain: rvalue, no pending operations, all
indices (vacuously) literal. -/
def AccessChain.empty : AccessChain :=
  ⟨StorageClass.Max, [], 0, 0, 0, 0, 0, true, 0, BlockStorage.unspecified⟩

/-- `struct SpirvIdOrLiteral`: an access-chain index element, either an id
(dynamic index) or a literal integer. -/
inductive SpirvIdOrLiteral where
  | id (value : Nat)
  | literal (value : Nat)
  deriving DecidableEq, Repr

/-- `struct NodeData`: the per-node synthesis record. -/
structure NodeData where
  baseId : Nat
  idList : List SpirvIdOrLiteral
  accessChain : AccessChain
  deriving DecidableEq, Repr

/-- A default-constructed (empty) synthesis record, as pushed by
`mNodeData.emplace_back()`. -/
def NodeData.empty : NodeData := ⟨0, [], AccessChain.empty⟩

/-- `IsAccessChainRValue`: storage class `Max` marks an rvalue. -/
def IsAccessChainRValue (ac : AccessChain) : Bool :=
  ac.storageClass == StorageClass.Max

/-- `IsAccessChainUnindexedLValue`: a real storage class, no indices, no
pending swizzle, no pending dynamic component. -/
def IsAccessChainUnindexedLValue (d : NodeData) : Bool :=
  !IsAccessChainRValue d.accessChain && d.idList.isEmpty &&
    d.accessChain.swizzles.isEmpty && !idValid d.accessChain.dynamicComponent

/-- `nodeDataInitLValue`. -/
def nodeDataInitLValue (baseId typeId : Nat) (sc : StorageClass)
    (blockStorage : BlockStorage) : NodeData :=
  { baseId := baseId
    idList := []
    accessChain :=
      { AccessChain.empty with
          preSwizzleTypeId := typeId
          storageClass := sc
          baseBlockStorage := blockStorage } }

/-- `nodeDataInitRValue`. -/
def nodeDataInitRValue (baseId typeId : Nat) : NodeData :=
  { baseId := baseId
    idList := []
    accessChain := { AccessChain.empty with preSwizzleTypeId := typeId } }

/-- `accessChainPush`: append a dynamic index; clears the all-literal flag. -/
def accessChainPush (d : NodeData) (index typeId : Nat) : NodeData :=
  { d with
      idList := d.idList ++ [SpirvIdOrLiteral.id index]
      accessChain :=
        { d.accessChain with areAllIndicesLiteral := false, preSwizzleTypeId := typeId } }

/-- `accessChainPushLiteral`: append a literal index; preserves the
all-literal flag. -/
def accessChainPushLiteral (d : NodeData) (index typeId : Nat) : NodeData :=
  { d with
      idList := d.idList ++ [SpirvIdOrLiteral.literal index]
      accessChain := { d.accessChain with preSwizzleTypeId := typeId } }

/-- `accessChainPushSwizzle`: a single-component swizzle folds into the
index chain as a literal; a multi-component swizzle is recorded pending. -/
def accessChainPushSwizzle (d : NodeData) (swizzle : List Nat) (typeId : Nat)
    (componentCount : Nat) : NodeData :=
  if swizzle.length = 1 then
    accessChainPushLiteral d (swizzle.headD 0) typeId
  else
    { d with
        accessChain :=
          { d.accessChain with
              swizzles := d.accessChain.swizzles ++ swizzle
              postSwizzleTypeId := typeId
              swizzledVectorComponentCount := componentCount } }

/-- `accessChainPushDynamicComponent`: kept separate for rvalues with
all-literal indices; fused with a pending swizzle through a constant
uint vector and `OpVectorExtractDynamic` otherwise; else folded straight
into the index chain. -/
def accessChainPushDynamicComponent (d : NodeData) (index typeId : Nat)
    (b : Builder) : NodeData × Builder :=
  if IsAccessChainRValue d.accessChain && d.accessChain.areAllIndicesLiteral then
    ({ d with
         accessChain :=
           { d.accessChain with
               dynamicComponent := index
               postDynamicComponentTypeId := typeId } }, b)
  else if !d.accessChain.swizzles.isEmpty then
    let p :=
      d.accessChain.swizzles.foldl
        (fun acc c =>
          let q := acc.2.getUintConstant c
          (acc.1 ++ [q.1], q.2))
        (([] : List Nat), b)
    let swizzleIds := p.1
    let b := p.2
    let pu := b.internType TypeKey.uintScalar
    let uintTypeId := pu.1
    let pv := pu.2.internType (TypeKey.uintVec swizzleIds.length)
    let uvecTypeId := pv.1
    let ps := pv.2.getNewId
    let swizzlesId := ps.1
    let b :=
      { ps.2 with
          typeConstantDecls :=
            ps.2.typeConstantDecls ++
              [Instr.opConstantComposite uvecTypeId swizzlesId swizzleIds] }
    let pn := b.getNewId
    let newIndex := pn.1
    let b := pn.2.emit (Instr.opVectorExtractDynamic uintTypeId newIndex swizzlesId index)
    let d := { d with accessChain := { d.accessChain with swizzles := [] } }
    (accessChainPush d newIndex typeId, b)
  else
    (accessChainPush d index typeId, b)

/-- Loop of `makeAccessChainIdList` over the index elements. -/
def makeAccessChainIdListLoop : List SpirvIdOrLiteral → List Nat → Builder →
    List Nat × Builder
  | [], acc, b => (acc, b)
  | SpirvIdOrLiteral.id i :: rest, acc, b => makeAccessChainIdListLoop rest (acc ++ [i]) b
  | SpirvIdOrLiteral.literal n :: rest, acc, b =>
      let q := b.getUintConstant n
      makeAccessChainIdListLoop rest (acc ++ [q.1]) q.2

/-- `makeAccessChainIdList`: literal entries are replaced by interned uint
constant ids. -/
def makeAccessChainIdList (d : NodeData) (b : Builder) : List Nat × Builder :=
  makeAccessChainIdListLoop d.idList [] b

/-- `makeAccessChainLiteralList`: extract the literal entries (the caller
guarantees, per the C++ ASSERT, that no id entries exist). -/
def makeAccessChainLiteralList (d : NodeData) : List Nat :=
  d.idList.filterMap
    (fun e =>
      match e with
      | SpirvIdOrLiteral.literal n => some n
      | SpirvIdOrLiteral.id _ => none)

/-- `accessChainCollapse`: lvalues only (the ASSERT on a real storage class
is modelled as `none`).  Returns the cached pointer, or the base id when
there are no indices, or materializes exactly one `OpAccessChain`. -/
def accessChainCollapse (d : NodeData) (b : Builder) :
    Option (Nat × NodeData × Builder) :=
  if d.accessChain.storageClass = StorageClass.Max then none
  else if idValid d.accessChain.accessChainId then
    some (d.accessChain.accessChainId, d, b)
  else if d.idList.isEmpty then
    some (d.baseId,
      { d with accessChain := { d.accessChain with accessChainId := d.baseId } }, b)
  else
    let pi := makeAccessChainIdList d b
    let indexIds := pi.1
    let pp := pi.2.getTypePointerId d.accessChain.preSwizzleTypeId d.accessChain.storageClass
    let typePointerId := pp.1
    let pn := pp.2.getNewId
    let newId := pn.1
    let b := pn.2.emit (Instr.opAccessChain typePointerId newId d.baseId indexIds)
    some (newId,
      { d with accessChain := { d.accessChain with accessChainId := newId } }, b)

/-- First stage of `accessChainLoad`: resolve the base value before the
pending swizzle / dynamic component are applied.  Mirrors the rvalue /
lvalue branches of the C++ exactly, including the spill of an rvalue with
a non-literal index into a fresh Function-class temporary. -/
def accessChainLoadBase (d : NodeData) (b : Builder) :
    Option (Nat × NodeData × Builder) :=
  if IsAccessChainRValue d.accessChain then
    if d.idList.length > 0 then
      if d.accessChain.areAllIndicesLiteral then
        let indexList := makeAccessChainLiteralList d
        let pn := b.getNewId
        some (pn.1, d,
          pn.2.emit
            (Instr.opCompositeExtract d.accessChain.preSwizzleTypeId pn.1 d.baseId indexList))
      else
        let pt := b.declareVariable d.accessChain.preSwizzleTypeId StorageClass.Function
        let tempVar := pt.1
        let b := pt.2.emit (Instr.opStore tempVar d.baseId)
        let d :=
          { d with
              baseId := tempVar
              accessChain := { d.accessChain with storageClass := StorageClass.Function } }
        match accessChainCollapse d b with
        | none => none
        | some (accessChainId, d, b) =>
            let pn := b.getNewId
            some (pn.1, d,
              pn.2.emit (Instr.opLoad d.accessChain.preSwizzleTypeId pn.1 accessChainId))
    else
      some (d.baseId, d, b)
  else
    match accessChainCollapse d b with
    | none => none
    | some (accessChainId, d, b) =>
        let pn := b.getNewId
        some (pn.1, d,
          pn.2.emit (Instr.opLoad d.accessChain.preSwizzleTypeId pn.1 accessChainId))

/-- Second stage of `accessChainLoad`: a pending multi-component swizzle
adds one `OpVectorShuffle`, then a pending dynamic component adds one
`OpVectorExtractDynamic` (the C++ ASSERTs on these paths are release-mode
no-ops and the code proceeds as modelled). -/
def accessChainLoadTails (ac : AccessChain) (r : Nat × NodeData × Builder) :
    Nat × NodeData × Builder :=
  let loadResult := r.1
  let d := r.2.1
  let b := r.2.2
  let p1 :=
    if !ac.swizzles.isEmpty then
      let pn := b.getNewId
      (pn.1,
       pn.2.emit
         (Instr.opVectorShuffle ac.postSwizzleTypeId pn.1 loadResult loadResult ac.swizzles))
    else
      (loadResult, b)
  let loadResult := p1.1
  let b := p1.2
  if idValid ac.dynamicComponent then
    let pn := b.getNewId
    (pn.1, d,
     pn.2.emit
       (Instr.opVectorExtractDynamic ac.postDynamicComponentTypeId pn.1 loadResult
         ac.dynamicComponent))
  else
    (loadResult, d, b)

/-- `accessChainLoad`, the full load decision procedure. -/
def accessChainLoad (d : NodeData) (b : Builder) : Option (Nat × NodeData × Builder) :=
  (accessChainLoadBase d b).map (accessChainLoadTails d.accessChain)

/-- The store shuffle mask of `accessChainStore`: start from the identity
swizzle of the destination vector, then make each swizzled destination
lane read the next component of the stored value (components of the
second shuffle operand are numbered from `componentCount`).  The explicit
`srcComponent` counter mirrors the C++ loop. -/
def storeSwizzleMaskLoop : List Nat → Nat → Nat → List Nat → List Nat
  | [], _, _, mask => mask
  | dst :: rest, srcComponent, componentCount, mask =>
      storeSwizzleMaskLoop rest (srcComponent + 1) componentCount
        (mask.set dst (componentCount + srcComponent))

/-- The complete mask built by `accessChainStore` for a pending swizzle. -/
def storeSwizzleMask (componentCount : Nat) (swizzles : List Nat) : List Nat :=
  storeSwizzleMaskLoop swizzles 0 componentCount (List.range componentCount)

/-- `accessChainStore`.  The two leading ASSERTs (a single-component
swizzle must have been folded; a dynamic component must have been folded)
are modelled as failure, as is `accessChainCollapse` on an rvalue. -/
def accessChainStore (d : NodeData) (value : Nat) (b : Builder) :
    Option (NodeData × Builder) :=
  if d.accessChain.swizzles.length = 1 then none
  else if idValid d.accessChain.dynamicComponent then none
  else
    match accessChainCollapse d b with
    | none => none
    | some (accessChainId, d, b) =>
        let pv :=
          if !d.accessChain.swizzles.isEmpty then
            let pl := b.getNewId
            let loadResult := pl.1
            let b :=
              pl.2.emit (Instr.opLoad d.accessChain.preSwizzleTypeId loadResult accessChainId)
            let swizzleList :=
              storeSwizzleMask d.accessChain.swizzledVectorComponentCount
                d.accessChain.swizzles
            let pr := b.getNewId
            (pr.1,
             pr.2.emit
               (Instr.opVectorShuffle d.accessChain.postSwizzleTypeId pr.1 loadResult value
                 swizzleList))
          else
            (value, b)
        some (d, pv.2.emit (Instr.opStore accessChainId pv.1))

/-- Evaluation semantics of `OpVectorShuffle` (from the SPIR-V
specification): component `c` of the mask selects component `c` of the
concatenation of the two operand vectors. -/
def vectorShuffleEval (v1 v2 : List Int) (mask : List Nat) : List Int :=
  mask.map (fun c => (v1 ++ v2).getD c 0)

/-- The identity-swizzle test of `visitSwizzle`: the swizzle selects all
the components of the vector in order. -/
def isIdentitySwizzle (swizzle : List Nat) (vectorComponentCount : Nat) : Bool :=
  swizzle.length == vectorComponentCount &&
    (List.range swizzle.length).all (fun index => swizzle.getD index 0 == index)

/-- The PostVisit action of `visitSwizzle`: do nothing for an identity
swizzle (in the C++ the early return even skips the type lookup), else
push the swizzle on the operand's access chain. -/
def visitSwizzlePost (d : NodeData) (swizzle : List Nat) (typeId : Nat)
    (vectorComponentCount : Nat) : NodeData :=
  if isIdentitySwizzle swizzle vectorComponentCount then d
  else accessChainPushSwizzle d swizzle typeId vectorComponentCount

/-- Bounds-checked list write: the shallow embedding of a C++
`std::vector::operator[]` store, which is undefined behavior out of
bounds. -/
def setChecked (l : List Nat) (i : Nat) (v : Nat) : Option (List Nat) :=
  if i < l.length then some (l.set i v) else none

/-- The column loop of `createConstructorMatrixFromScalar`: per column,
allocate the column id, place the scalar at the diagonal index
(`componentIds[columnIndex] = scalarId`), restore zero at the previous
column's diagonal index, and write the column's
`OpCompositeConstruct`. -/
def createConstructorMatrixFromScalarLoop :
    Nat → Nat → List Nat → Nat → Nat → Nat → List Nat → Builder →
      Option (List Nat × Builder)
  | 0, _, _, _, _, _, columnIds, b => some (columnIds, b)
  | colsLeft + 1, columnIndex, componentIds, scalarId, zeroId, columnTypeId, columnIds, b =>
      let pn := b.getNewId
      match setChecked componentIds columnIndex scalarId with
      | none => none
      | some componentIds =>
          match
            (if columnIndex > 0 then setChecked componentIds (columnIndex - 1) zeroId
             else some componentIds) with
          | none => none
          | some componentIds =>
              let b :=
                pn.2.emit (Instr.opCompositeConstruct columnTypeId pn.1 componentIds)
              createConstructorMatrixFromScalarLoop colsLeft (columnIndex + 1) componentIds
                scalarId zeroId columnTypeId (columnIds ++ [pn.1]) b

/-- `createConstructorMatrixFromScalar`: build the per-column component
vectors starting from an all-zero list of length `rows`, then compose the
columns into the matrix. -/
def createConstructorMatrixFromScalar (cols rows scalarId zeroId typeId columnTypeId : Nat)
    (b : Builder) : Option (Nat × Builder) :=
  match
    createConstructorMatrixFromScalarLoop cols 0 (List.replicate rows zeroId) scalarId zeroId
      columnTypeId [] b with
  | none => none
  | some (columnIds, b) =>
      let pn := b.getNewId
      some (pn.1, pn.2.emit (Instr.opCompositeConstruct typeId pn.1 columnIds))

/-- One component of a matrix column in the constructor synthesizer:
either extracted from the single matrix parameter or a constant. -/
inductive MatEntry where
  | extract (colIndex rowIndex : Nat)
  | constant (c : ConstVal)
  deriving DecidableEq, Repr

/-- The constant chosen by the identity-overlay branch of
`createConstructorMatrixFromMatrix` for a component not taken from the
parameter: the C++ switch writes `isOnDiagonal ? 0 : 1` for the numeric
types (and `getBoolConstant(isOnDiagonal)` for bool). -/
def identityOverlayConstant (basic : BasicType) (isOnDiagonal : Bool) : ConstVal :=
  match basic with
  | BasicType.float => ConstVal.float (if isOnDiagonal then 0 else 1)
  | BasicType.int => ConstVal.int (if isOnDiagonal then 0 else 1)
  | BasicType.uint => ConstVal.uint (if isOnDiagonal then 0 else 1)
  | BasicType.bool => ConstVal.bool isOnDiagonal

/-- Component selection of the identity-overlay branch of
`createConstructorMatrixFromMatrix`: the component is taken from the
parameter whenever `componentIndex < parameterType.getRows()` (the C++
places no condition on the column index), else it is the overlay
constant. -/
def matrixFromMatrixComponent (basic : BasicType) (paramRows columnIndex componentIndex : Nat) :
    MatEntry :=
  if componentIndex < paramRows then MatEntry.extract columnIndex componentIndex
  else MatEntry.constant (identityOverlayConstant basic (columnIndex == componentIndex))

/-- The full component grid (columns of rows) produced by the
identity-overlay branch for a target matrix of `cols` columns and `rows`
rows from a parameter with `paramRows` rows. -/
def matrixFromMatrixGrid (basic : BasicType) (paramRows cols rows : Nat) :
    List (List MatEntry) :=
  (List.range cols).map (fun columnIndex =>
    (List.range rows).map (fun componentIndex =>
      matrixFromMatrixComponent basic paramRows columnIndex componentIndex))

/-- Modelled from the spec: the component rule the spec states for
constructing a matrix from a smaller matrix, for comparison with
`matrixFromMatrixComponent` — build an identity matrix (one on the
diagonal, zero elsewhere) and take a component from the parameter exactly
when both its column index and its row index are within the parameter's
dimensions. -/
def specIdentityConstant (basic : BasicType) (isOnDiagonal : Bool) : ConstVal :=
  match basic with
  | BasicType.float => ConstVal.float (if isOnDiagonal then 1 else 0)
  | BasicType.int => ConstVal.int (if isOnDiagonal then 1 else 0)
  | BasicType.uint => ConstVal.uint (if isOnDiagonal then 1 else 0)
  | BasicType.bool => ConstVal.bool isOnDiagonal

/-- Modelled from the spec: see `specIdentityConstant`. -/
def specMatrixFromMatrixComponent (basic : BasicType)
    (paramCols paramRows columnIndex componentIndex : Nat) : MatEntry :=
  if columnIndex < paramCols && componentIndex < paramRows then
    MatEntry.extract columnIndex componentIndex
  else
    MatEntry.constant (specIdentityConstant basic (columnIndex == componentIndex))

/-- Emit one component of the identity-overlay branch: an extract
allocates a fresh id and writes `OpCompositeExtract` with the column and
component indices; a constant is interned. -/
def emitMatEntry (paramComponentTypeId paramId : Nat) (e : MatEntry) (b : Builder) :
    Nat × Builder :=
  match e with
  | MatEntry.extract colIndex rowIndex =>
      let pn := b.getNewId
      (pn.1,
       pn.2.emit
         (Instr.opCompositeExtract paramComponentTypeId pn.1 paramId [colIndex, rowIndex]))
  | MatEntry.constant c => b.internConst c

/-- Emit a list of ids, one per entry. -/
def emitMatEntries (paramComponentTypeId paramId : Nat) : List MatEntry → Builder →
    List Nat × Builder
  | [], b => ([], b)
  | e :: rest, b =>
      let p := emitMatEntry paramComponentTypeId paramId e b
      let q := emitMatEntries paramComponentTypeId paramId rest p.2
      (p.1 :: q.1, q.2)

/-- The identity-overlay branch of `createConstructorMatrixFromMatrix`
(taken when the parameter is not at least as large as the target in both
dimensions): per column, emit each component by `matrixFromMatrixComponent`
and construct the column, then construct the matrix from the columns. -/
def createConstructorMatrixFromMatrixSmall (basic : BasicType)
    (cols rows paramRows paramId typeId columnTypeId paramComponentTypeId : Nat)
    (b : Builder) : Nat × Builder :=
  let p :=
    (List.range cols).foldl
      (fun acc columnIndex =>
        let entries :=
          (List.range rows).map (fun componentIndex =>
            matrixFromMatrixComponent basic paramRows columnIndex componentIndex)
        let pe := emitMatEntries paramComponentTypeId paramId entries acc.2
        let pn := pe.2.getNewId
        (acc.1 ++ [pn.1],
         pn.2.emit (Instr.opCompositeConstruct columnTypeId pn.1 pe.1)))
      (([] : List Nat), b)
  let pn := p.2.getNewId
  (pn.1, pn.2.emit (Instr.opCompositeConstruct typeId pn.1 p.1))

/-- The extraction branch of `createConstructorMatrixFromMatrix` (taken
when the parameter has at least as many columns and rows as the target):
extract each of the target's columns from the parameter, shuffling off
excess rows. -/
def createConstructorMatrixFromMatrixLarge
    (cols rows paramRows paramId typeId columnTypeId paramColumnTypeId : Nat)
    (b : Builder) : Nat × Builder :=
  let needsSwizzle := rows < paramRows
  let swizzle := (List.range 4).take rows
  let p :=
    (List.range cols).foldl
      (fun acc columnIndex =>
        let pe := acc.2.getNewId
        let b :=
          pe.2.emit
            (Instr.opCompositeExtract paramColumnTypeId pe.1 paramId [columnIndex])
        if needsSwizzle then
          let pn := b.getNewId
          (acc.1 ++ [pn.1],
           pn.2.emit (Instr.opVectorShuffle columnTypeId pn.1 pe.1 pe.1 swizzle))
        else
          (acc.1 ++ [pe.1], b))
      (([] : List Nat), b)
  let pn := p.2.getNewId
  (pn.1, pn.2.emit (Instr.opCompositeConstruct typeId pn.1 p.1))

/-- `createConstructorMatrixFromMatrix`, dispatching on whether the single
matrix parameter covers the target in both dimensions. -/
def createConstructorMatrixFromMatrix (basic : BasicType)
    (cols rows paramCols paramRows paramId typeId columnTypeId paramColumnTypeId
     paramComponentTypeId : Nat) (b : Builder) : Nat × Builder :=
  if cols ≤ paramCols && rows ≤ paramRows then
    createConstructorMatrixFromMatrixLarge cols rows paramRows paramId typeId columnTypeId
      paramColumnTypeId b
  else
    createConstructorMatrixFromMatrixSmall basic cols rows paramRows paramId typeId
      columnTypeId paramComponentTypeId b

/-- `createArrayOrStructConstructor`: one `OpCompositeConstruct` of all
the parameter ids. -/
def createArrayOrStructConstructor (typeId : Nat) (parameters : List Nat) (b : Builder) :
    Nat × Builder :=
  let pn := b.getNewId
  (pn.1, pn.2.emit (Instr.opCompositeConstruct typeId pn.1 parameters))

/-- `createConstructorVectorFromScalar`: `OpCompositeConstruct` of `size`
copies of the scalar. -/
def createConstructorVectorFromScalar (size : Nat) (typeId : Nat) (parameter : Nat)
    (b : Builder) : Nat × Builder :=
  let pn := b.getNewId
  (pn.1, pn.2.emit (Instr.opCompositeConstruct typeId pn.1 (List.replicate size parameter)))

/-- Static description of one formal parameter of a called function:
its qualifier, whether its type is opaque (sampler/image), and its
SPIR-V type id (as `mBuilder.getTypeData` would intern it). -/
structure CallParamDesc where
  qualifier : Qualifier
  isOpaque : Bool
  typeId : Nat
  deriving DecidableEq, Repr

/-- The outcome of lowering one argument in `createFunctionCall`'s first
loop: the updated argument record, the id passed to the callee, and the
temporary variable (id 0 when none was made) with its type id. -/
structure LoweredParam where
  desc : CallParamDesc
  record : NodeData
  paramValue : Nat
  tempVarId : Nat
  tempVarTypeId : Nat
  deriving DecidableEq, Repr

/-- Body of `createFunctionCall`'s first loop for one argument: opaque
parameters, const parameters and unindexed-lvalue arguments resolve by
`accessChainLoad` with no temporary; otherwise a Function-class temporary
is declared and passed, initialized with the argument's loaded value
before the call exactly when the qualifier is in or inout. -/
def lowerCallParam (desc : CallParamDesc) (arg : NodeData) (b : Builder) :
    Option (LoweredParam × Builder) :=
  if desc.isOpaque || desc.qualifier = Qualifier.qConst ||
      IsAccessChainUnindexedLValue arg then
    match accessChainLoad arg b with
    | none => none
    | some (paramValue, arg, b) => some (⟨desc, arg, paramValue, 0, 0⟩, b)
  else
    let tempVarTypeId := desc.typeId
    let pt := b.declareVariable tempVarTypeId StorageClass.Function
    let tempVarId := pt.1
    let b := pt.2
    if desc.qualifier = Qualifier.qIn || desc.qualifier = Qualifier.qInOut then
      match accessChainLoad arg b with
      | none => none
      | some (paramValue, arg, b) =>
          some (⟨desc, arg, tempVarId, tempVarId, tempVarTypeId⟩,
            b.emit (Instr.opStore tempVarId paramValue))
    else
      some (⟨desc, arg, tempVarId, tempVarId, tempVarTypeId⟩, b)

/-- First loop of `createFunctionCall` over all arguments. -/
def lowerCallParams : List (CallParamDesc × NodeData) → Builder →
    Option (List LoweredParam × Builder)
  | [], b => some ([], b)
  | (desc, arg) :: rest, b =>
      match lowerCallParam desc arg b with
      | none => none
      | some (lp, b) =>
          match lowerCallParams rest b with
          | none => none
          | some (lps, b) => some (lp :: lps, b)

/-- Body of `createFunctionCall`'s second loop for one argument: nothing
to do without a temporary or for an in parameter; otherwise load the
temporary and store the value back through the argument's access chain. -/
def callCopyBack (lp : LoweredParam) (b : Builder) : Option Builder :=
  if !idValid lp.tempVarId then some b
  else if lp.desc.qualifier = Qualifier.qIn then some b
  else
    let tempVarData :=
      nodeDataInitLValue lp.tempVarId lp.tempVarTypeId StorageClass.Function
        BlockStorage.unspecified
    match accessChainLoad tempVarData b with
    | none => none
    | some (tempVarValue, _, b) =>
        match accessChainStore lp.record tempVarValue b with
        | none => none
        | some (_, b) => some b

/-- Second loop of `createFunctionCall`. -/
def callCopyBacks : List LoweredParam → Builder → Option Builder
  | [], b => some b
  | lp :: rest, b =>
      match callCopyBack lp b with
      | none => none
      | some b => callCopyBacks rest b

/-- `createFunctionCall`: lower the arguments, emit the call with the
lowered parameter ids, then run the copy-backs. -/
def createFunctionCall (functionId resultTypeId : Nat)
    (args : List (CallParamDesc × NodeData)) (b : Builder) : Option (Nat × Builder) :=
  match lowerCallParams args b with
  | none => none
  | some (lps, b) =>
      let pn := b.getNewId
      let result := pn.1
      let b :=
        pn.2.emit
          (Instr.opFunctionCall resultTypeId result functionId (lps.map LoweredParam.paramValue))
      match callCopyBacks lps b with
      | none => none
      | some b => some (result, b)

/-- The atomic built-in operators handled by `createAtomicBuiltIn`. -/
inductive AtomicOp where
  | add
  | min
  | max
  | opAnd
  | opOr
  | opXor
  | exchange
  | compSwap
  deriving DecidableEq, Repr

/-- `spv::ScopeDevice`. -/
def scopeDevice : Nat := 1

/-- `spv::MemorySemanticsMaskNone`, i.e. Relaxed. -/
def memorySemanticsMaskNone : Nat := 0

/-- Opcode selection of `createAtomicBuiltIn`'s switch for the
non-compare-swap operators: Min and Max take the unsigned variant exactly
when `isUnsigned` (in the C++, when the first argument's basic type is
`EbtUInt`). -/
def atomicOpcodeFor (op : AtomicOp) (isUnsigned : Bool) : Option AtomicOpcode :=
  match op with
  | AtomicOp.add => some AtomicOpcode.IAdd
  | AtomicOp.min => some (if isUnsigned then AtomicOpcode.UMin else AtomicOpcode.SMin)
  | AtomicOp.max => some (if isUnsigned then AtomicOpcode.UMax else AtomicOpcode.SMax)
  | AtomicOp.opAnd => some AtomicOpcode.BAnd
  | AtomicOp.opOr => some AtomicOpcode.BOr
  | AtomicOp.opXor => some AtomicOpcode.BXor
  | AtomicOp.exchange => some AtomicOpcode.Exchange
  | AtomicOp.compSwap => none

/-- Load a list of argument records in order (the loop over the non-first
atomic arguments). -/
def loadAll : List NodeData → Builder → Option (List Nat × Builder)
  | [], b => some ([], b)
  | d :: rest, b =>
      match accessChainLoad d b with
      | none => none
      | some (v, _, b) =>
          match loadAll rest b with
          | none => none
          | some (vs, b) => some (v :: vs, b)

/-- `createAtomicBuiltIn`: the first argument is collapsed to a pointer
and the remaining arguments are loaded as rvalues; the scope is always
Device and the memory semantics always Relaxed; `atomicCompSwap` writes
`OpAtomicCompareExchange` with value and comparator swapped relative to
the source argument order.  Arity ASSERTs are modelled as failure. -/
def createAtomicBuiltIn (op : AtomicOp) (isUnsigned : Bool) (resultTypeId : Nat)
    (args : List NodeData) (b : Builder) : Option (Nat × Builder) :=
  match args with
  | [] => none
  | a0 :: rest =>
      if rest.isEmpty then none
      else
        match accessChainCollapse a0 b with
        | none => none
        | some (pointerId, _, b) =>
            match loadAll rest b with
            | none => none
            | some (parameters, b) =>
                let ps := b.getUintConstant scopeDevice
                let scopeId := ps.1
                let pm := ps.2.getUintConstant memorySemanticsMaskNone
                let semanticsId := pm.1
                let pn := pm.2.getNewId
                let result := pn.1
                let b := pn.2
                match op with
                | AtomicOp.compSwap =>
                    match parameters with
                    | [p0, p1] =>
                        some (result,
                          b.emit
                            (Instr.opAtomicCompareExchange resultTypeId result pointerId
                              scopeId semanticsId semanticsId p1 p0))
                    | _ => none
                | _ =>
                    match atomicOpcodeFor op isUnsigned with
                    | none => none
                    | some opcode =>
                        match parameters with
                        | [p0] =>
                            some (result,
                              b.emit
                                (Instr.opAtomic opcode resultTypeId result pointerId scopeId
                                  semanticsId p0))
                        | _ => none

/-- `getAccessChainTypeId`: the type of the expression after the last
chain-collapse stage that applies. -/
def getAccessChainTypeId (d : NodeData) : Nat :=
  if idValid d.accessChain.postDynamicComponentTypeId then
    d.accessChain.postDynamicComponentTypeId
  else if idValid d.accessChain.postSwizzleTypeId then
    d.accessChain.postSwizzleTypeId
  else
    d.accessChain.preSwizzleTypeId

/-- State of the whole traversal: the synthesis-record stack `mNodeData`
(head of the list is `mNodeData.back()`) and the builder. -/
structure TravState where
  stack : List NodeData
  builder : Builder
  deriving DecidableEq, Repr

/-- `mNodeData.pop_back()`; popping an empty stack is undefined behavior
in the C++ and is modelled as failure. -/
def popRecord (st : TravState) : Option TravState :=
  match st.stack with
  | [] => none
  | _ :: rest => some { st with stack := rest }

/-- What a `visitAggregate` node does at PostVisit, by operator. -/
inductive AggDesc where
  | callFunction (functionId resultTypeId : Nat) (isVoid : Bool)
      (params : List CallParamDesc)
  | atomic (op : AtomicOp) (isUnsigned : Bool) (resultTypeId : Nat)
  | constructComposite (resultTypeId : Nat)
  deriving DecidableEq, Repr

mutual

/-- Expressions of the modelled input AST.  Symbol and constant nodes
carry their resolved ids and SPIR-V type ids (in the C++ these come from
the symbol map and the type interner); aggregate nodes carry the operator
description.  Only node kinds the generator implements are representable
(unary, ternary, switch, loops and non-return branches are
`UNIMPLEMENTED()` in the source). -/
inductive Expr where
  | symbolLValue (baseId typeId : Nat) (sc : StorageClass) (blockStorage : BlockStorage)
  | symbolConst (baseId typeId : Nat)
  | constantU (constId typeId : Nat)
  | swizzleNode (offsets : List Nat) (typeId vecSize : Nat) (operand : Expr)
  | indexDirect (literal typeId : Nat) (base : Expr)
  | indexIndirect (baseIsVector : Bool) (typeId : Nat) (base index : Expr)
  | assign (lhs rhs : Expr)
  | arith (tag : ArithTag) (typeId : Nat) (lhs rhs : Expr)
  | aggregate (desc : AggDesc) (args : ExprList)

/-- Argument lists of aggregate nodes. -/
inductive ExprList where
  | nil
  | cons (head : Expr) (tail : ExprList)

end

/-- Number of child expressions of an aggregate node. -/
def ExprList.length : ExprList → Nat
  | ExprList.nil => 0
  | ExprList.cons _ tail => 1 + tail.length

/-- Whether a node is a constant-union node (drives
`initializeWithDeclaration` in `visitDeclaration`). -/
def isConstantUnionNode : Expr → Bool
  | Expr.constantU _ _ => true
  | _ => false

/-- PostVisit of `visitAggregate`: with `count` child records on the
stack above the node's own record, run the operator, pop the `count`
child records, and if the result type is not void replace the node's own
record with an rvalue of the result.  The `mNodeData.size() >
childCount` ASSERT is modelled as failure. -/
def aggregateEmit (desc : AggDesc) (args : List NodeData) (b : Builder) :
    Option (Nat × Nat × Bool × Builder) :=
  match desc with
  | AggDesc.callFunction functionId resultTypeId isVoid descs =>
      (createFunctionCall functionId resultTypeId (descs.zip args) b).map
        (fun p => (p.1, resultTypeId, isVoid, p.2))
  | AggDesc.atomic op isUnsigned resultTypeId =>
      (createAtomicBuiltIn op isUnsigned resultTypeId args b).map
        (fun p => (p.1, resultTypeId, false, p.2))
  | AggDesc.constructComposite resultTypeId =>
      match loadAll args b with
      | none => none
      | some (parameters, b) =>
          let p := createArrayOrStructConstructor resultTypeId parameters b
          some (p.1, resultTypeId, false, p.2)

/-- See `visitAggregatePost`. -/
def visitAggregatePost (desc : AggDesc) (count : Nat) (st : TravState) :
    Option TravState :=
  if st.stack.length ≤ count then none
  else
    match aggregateEmit desc ((st.stack.take count).reverse) st.builder with
    | none => none
    | some (result, resultTypeId, isVoid, b) =>
        match st.stack.drop count with
        | [] => none
        | own :: below =>
            if isVoid then some ⟨own :: below, b⟩
            else some ⟨nodeDataInitRValue result resultTypeId :: below, b⟩

mutual

/-- Traversal of one expression, mirroring the visit methods: each
expression leaves exactly one new synthesis record on the stack when it
succeeds. -/
def traverseExpr : Expr → TravState → Option TravState
  | Expr.symbolLValue baseId typeId sc bs, st =>
      some { st with stack := nodeDataInitLValue baseId typeId sc bs :: st.stack }
  | Expr.symbolConst baseId typeId, st =>
      some { st with stack := nodeDataInitRValue baseId typeId :: st.stack }
  | Expr.constantU constId typeId, st =>
      some { st with stack := nodeDataInitRValue constId typeId :: st.stack }
  | Expr.swizzleNode offsets typeId vecSize operand, st =>
      match traverseExpr operand st with
      | none => none
      | some st =>
          match st.stack with
          | [] => none
          | d :: rest =>
              some { st with stack := visitSwizzlePost d offsets typeId vecSize :: rest }
  | Expr.indexDirect lit typeId base, st =>
      match traverseExpr base st with
      | none => none
      | some st =>
          match st.stack with
          | [] => none
          | d :: rest =>
              some { st with stack := accessChainPushLiteral d lit typeId :: rest }
  | Expr.indexIndirect baseIsVector typeId base index, st =>
      match traverseExpr base st with
      | none => none
      | some st =>
          match traverseExpr index st with
          | none => none
          | some st =>
              match st.stack with
              | rd :: ld :: rest =>
                  match accessChainLoad rd st.builder with
                  | none => none
                  | some (rightValue, _, b) =>
                      if baseIsVector then
                        let p := accessChainPushDynamicComponent ld rightValue typeId b
                        some ⟨p.1 :: rest, p.2⟩
                      else
                        some ⟨accessChainPush ld rightValue typeId :: rest, b⟩
              | _ => none
  | Expr.assign lhs rhs, st =>
      match traverseExpr lhs st with
      | none => none
      | some st =>
          match traverseExpr rhs st with
          | none => none
          | some st =>
              match st.stack with
              | rd :: ld :: rest =>
                  let typeId := getAccessChainTypeId rd
                  match accessChainLoad rd st.builder with
                  | none => none
                  | some (rightValue, _, b) =>
                      match accessChainStore ld rightValue b with
                      | none => none
                      | some (_, b) =>
                          some ⟨nodeDataInitRValue rightValue typeId :: rest, b⟩
              | _ => none
  | Expr.arith tag typeId lhs rhs, st =>
      match traverseExpr lhs st with
      | none => none
      | some st =>
          match traverseExpr rhs st with
          | none => none
          | some st =>
              match st.stack with
              | rd :: ld :: rest =>
                  match accessChainLoad rd st.builder with
                  | none => none
                  | some (rightValue, _, b) =>
                      match accessChainLoad ld b with
                      | none => none
                      | some (leftValue, _, b) =>
                          let pn := b.getNewId
                          some ⟨nodeDataInitRValue pn.1 typeId :: rest,
                            pn.2.emit (Instr.opBinary tag typeId pn.1 leftValue rightValue)⟩
              | _ => none
  | Expr.aggregate desc args, st =>
      let st := { st with stack := NodeData.empty :: st.stack }
      match traverseExprList args st with
      | none => none
      | some st => visitAggregatePost desc args.length st

/-- Traversal of an aggregate node's children in order. -/
def traverseExprList : ExprList → TravState → Option TravState
  | ExprList.nil, st => some st
  | ExprList.cons e rest, st =>
      match traverseExpr e st with
      | none => none
      | some st => traverseExprList rest st

end

mutual

/-- Statements of the modelled input AST (the statement kinds
`OutputSPIRVTraverser` implements). -/
inductive Stmt where
  | exprStmt (e : Expr)
  | declPlain (typeId : Nat) (sc : StorageClass)
  | declInit (typeId : Nat) (sc : StorageClass) (init : Expr)
  | retVoid
  | retExpr (e : Expr)
  | ifThen (cond : Expr) (trueBody : StmtList)
  | ifThenElse (cond : Expr) (trueBody falseBody : StmtList)
  | subBlock (body : StmtList)

/-- Statement sequences, the children of a `TIntermBlock`. -/
inductive StmtList where
  | nil
  | cons (head : Stmt) (tail : StmtList)

end

mutual

/-- Traversal of one statement.  `visitDeclaration` pushes the node's own
record at PreVisit and pops the initializer's record at PostVisit (the
declared symbol itself is skipped via `mIsSymbolBeingDeclared` and is not
represented in the modelled declaration node); `visitBranch` (return)
pushes at PreVisit and pops the expression's record; `visitIfElse`
pushes nothing — the condition's record remains for the enclosing block
to pop. -/
def traverseStmt : Stmt → TravState → Option TravState
  | Stmt.exprStmt e, st => traverseExpr e st
  | Stmt.declPlain typeId sc, st =>
      let st := { st with stack := NodeData.empty :: st.stack }
      let pv := st.builder.declareVariable typeId sc
      some { st with builder := pv.2 }
  | Stmt.declInit typeId sc init, st =>
      let st := { st with stack := NodeData.empty :: st.stack }
      match traverseExpr init st with
      | none => none
      | some st =>
          match st.stack with
          | [] => none
          | initData :: rest =>
              if isConstantUnionNode init then
                let pv := st.builder.declareVariable typeId sc
                some ⟨rest, pv.2⟩
              else
                match accessChainLoad initData st.builder with
                | none => none
                | some (initializerId, _, b) =>
                    let pv := b.declareVariable typeId sc
                    some ⟨rest, pv.2.emit (Instr.opStore pv.1 initializerId)⟩
  | Stmt.retVoid, st =>
      let st := { st with stack := NodeData.empty :: st.stack }
      some { st with builder := (st.builder.emit Instr.opReturn).terminateBlock }
  | Stmt.retExpr e, st =>
      let st := { st with stack := NodeData.empty :: st.stack }
      match traverseExpr e st with
      | none => none
      | some st =>
          match st.stack with
          | [] => none
          | d :: rest =>
              match accessChainLoad d st.builder with
              | none => none
              | some (expressionValue, _, b) =>
                  some ⟨rest, (b.emit (Instr.opReturnValue expressionValue)).terminateBlock⟩
  | Stmt.ifThen cond trueBody, st =>
      match traverseExpr cond st with
      | none => none
      | some st =>
          match st.stack with
          | [] => none
          | condData :: rest =>
              match accessChainLoad condData st.builder with
              | none => none
              | some (conditionValue, condData, b) =>
                  let pt := b.getNewId
                  let pm := pt.2.getNewId
                  let trueBlock := pt.1
                  let mergeBlock := pm.1
                  let b := { pm.2 with condStack := pm.2.condStack ++ [[trueBlock, mergeBlock]] }
                  let b := b.emit (Instr.opSelectionMerge mergeBlock)
                  let b := b.emit (Instr.opBranchConditional conditionValue trueBlock mergeBlock)
                  let b := b.terminateBlock.startBlock
                  match traverseBlockStmts trueBody ⟨condData :: rest, b⟩ with
                  | none => none
                  | some st =>
                      let b := (st.builder.emit (Instr.opBranch mergeBlock)).terminateBlock.startBlock
                      some ⟨st.stack, { b with condStack := b.condStack.dropLast }⟩
  | Stmt.ifThenElse cond trueBody falseBody, st =>
      match traverseExpr cond st with
      | none => none
      | some st =>
          match st.stack with
          | [] => none
          | condData :: rest =>
              match accessChainLoad condData st.builder with
              | none => none
              | some (conditionValue, condData, b) =>
                  let pt := b.getNewId
                  let pf := pt.2.getNewId
                  let pm := pf.2.getNewId
                  let trueBlock := pt.1
                  let falseBlock := pf.1
                  let mergeBlock := pm.1
                  let b :=
                    { pm.2 with
                        condStack := pm.2.condStack ++ [[trueBlock, falseBlock, mergeBlock]] }
                  let b := b.emit (Instr.opSelectionMerge mergeBlock)
                  let b := b.emit (Instr.opBranchConditional conditionValue trueBlock falseBlock)
                  let b := b.terminateBlock.startBlock
                  match traverseBlockStmts trueBody ⟨condData :: rest, b⟩ with
                  | none => none
                  | some st =>
                      let b :=
                        (st.builder.emit (Instr.opBranch mergeBlock)).terminateBlock.startBlock
                      match traverseBlockStmts falseBody ⟨st.stack, b⟩ with
                      | none => none
                      | some st =>
                          let b :=
                            (st.builder.emit (Instr.opBranch mergeBlock)).terminateBlock.startBlock
                          some ⟨st.stack, { b with condStack := b.condStack.dropLast }⟩
  | Stmt.subBlock body, st => traverseBlockStmts body st

/-- Traversal of a `TIntermBlock`'s children: after each child statement
the block's InVisit/PostVisit callback pops one record (an empty block's
PreVisit returns false, which is the same as folding over no children). -/
def traverseBlockStmts : StmtList → TravState → Option TravState
  | StmtList.nil, st => some st
  | StmtList.cons s rest, st =>
      match traverseStmt s st with
      | none => none
      | some st =>
          match popRecord st with
          | none => none
          | some st => traverseBlockStmts rest st

end

/-- Children of the root block: function definitions and global
declarations.  The root block's own visit does nothing (depth 0). -/
inductive TopLevel where
  | funcDef (body : StmtList)
  | globalDeclPlain (typeId : Nat) (sc : StorageClass)
  | globalDeclInit (typeId : Nat) (sc : StorageClass) (init : Expr)

/-- Traversal of one root-block child.  A function definition starts a
new function, traverses its body block, and appends the implicit
`OpReturn` when the last block is unterminated; global declarations push
no record at PreVisit (`mInGlobalScope`) but still pop the initializer
record. -/
def traverseTopLevel : TopLevel → TravState → Option TravState
  | TopLevel.funcDef body, st =>
      let pf := st.builder.getNewId
      match traverseBlockStmts body { st with builder := pf.2.startBlock } with
      | none => none
      | some st =>
          if st.builder.terminated then some st
          else some { st with builder := (st.builder.emit Instr.opReturn).terminateBlock }
  | TopLevel.globalDeclPlain typeId sc, st =>
      let pv := st.builder.declareVariable typeId sc
      some { st with builder := pv.2 }
  | TopLevel.globalDeclInit typeId sc init, st =>
      match traverseExpr init st with
      | none => none
      | some st =>
          match st.stack with
          | [] => none
          | initData :: rest =>
              if isConstantUnionNode init then
                let pv := st.builder.declareVariable typeId sc
                some ⟨rest, pv.2⟩
              else
                match accessChainLoad initData st.builder with
                | none => none
                | some (initializerId, _, b) =>
                    let pv := b.declareVariable typeId sc
                    some ⟨rest, pv.2.emit (Instr.opStore pv.1 initializerId)⟩

/-- Traversal of the root block. -/
def traverseRoot : List TopLevel → TravState → Option TravState
  | [], st => some st
  | t :: rest, st =>
      match traverseTopLevel t st with
      | none => none
      | some st => traverseRoot rest st

/-- The whole pass: traverse the AST from a fresh builder and empty
stack; the emitted module is the final builder state. -/
def outputSpirv (prog : List TopLevel) : Option Builder :=
  (traverseRoot prog ⟨[], Builder.init⟩).map TravState.builder

mutual

/-- Whether a statement is admissible as the direct child of a block
without upsetting the record bookkeeping: a block statement nets zero
records while the enclosing block pops one, so nested block statements
are excluded; bodies of if statements are checked recursively. -/
def stmtNoNestedBlock : Stmt → Bool
  | Stmt.exprStmt _ => true
  | Stmt.declPlain _ _ => true
  | Stmt.declInit _ _ _ => true
  | Stmt.retVoid => true
  | Stmt.retExpr _ => true
  | Stmt.ifThen _ tb => listNoNestedBlock tb
  | Stmt.ifThenElse _ tb fb => listNoNestedBlock tb && listNoNestedBlock fb
  | Stmt.subBlock _ => false

/-- All children of a block admissible, recursively. -/
def listNoNestedBlock : StmtList → Bool
  | StmtList.nil => true
  | StmtList.cons s rest => stmtNoNestedBlock s && listNoNestedBlock rest

end

mutual

/-- Net number of synthesis records a statement leaves on the stack when
its traversal succeeds. -/
def stmtNet : Stmt → Int
  | Stmt.exprStmt _ => 1
  | Stmt.declPlain _ _ => 1
  | Stmt.declInit _ _ _ => 1
  | Stmt.retVoid => 1
  | Stmt.retExpr _ => 1
  | Stmt.ifThen _ tb => 1 + listNet tb
  | Stmt.ifThenElse _ tb fb => 1 + listNet tb + listNet fb
  | Stmt.subBlock body => listNet body

/-- Net number of records a block's child list leaves (each child's net,
minus the one record the block pops per child). -/
def listNet : StmtList → Int
  | StmtList.nil => 0
  | StmtList.cons s rest => (stmtNet s - 1) + listNet rest

end

/-- Net record count of a root-block child. -/
def topLevelNet : TopLevel → Int
  | TopLevel.funcDef body => listNet body
  | TopLevel.globalDeclPlain _ _ => 0
  | TopLevel.globalDeclInit _ _ _ => 0

/-- Net record count of the whole root block. -/
def rootNet : List TopLevel → Int
  | [] => 0
  | t :: rest => topLevelNet t + rootNet rest

/-! Theorems. -/

/-- Collapsing an access chain with a real storage class always succeeds
(every branch of `accessChainCollapse` other than the rvalue ASSERT
produces a pointer id). -/
theorem accessChainCollapse_isSome (d : NodeData) (b : Builder)
    (h : d.accessChain.storageClass ≠ StorageClass.Max) :
    ∃ r, accessChainCollapse d b = some r := by
  unfold accessChainCollapse
  simp only [h, if_false]
  split
  · exact ⟨_, rfl⟩
  · split
    · exact ⟨_, rfl⟩
    · exact ⟨_, rfl⟩

/-- Constant interning never touches the current block or the variable
declarations. -/
theorem internConst_state (b : Builder) (v : ConstVal) :
    (b.internConst v).2.block = b.block ∧
    (b.internConst v).2.variableDecls = b.variableDecls := by
  unfold Builder.internConst
  split <;> exact ⟨rfl, rfl⟩

/-- Type interning never touches the current block or the variable
declarations. -/
theorem internType_state (b : Builder) (k : TypeKey) :
    (b.internType k).2.block = b.block ∧
    (b.internType k).2.variableDecls = b.variableDecls := by
  unfold Builder.internType
  split <;> exact ⟨rfl, rfl⟩

/-- The id-list materialization only interns constants: it never touches
the current block or the variable declarations. -/
theorem makeAccessChainIdListLoop_state (l : List SpirvIdOrLiteral) (acc : List Nat)
    (b : Builder) :
    (makeAccessChainIdListLoop l acc b).2.block = b.block ∧
    (makeAccessChainIdListLoop l acc b).2.variableDecls = b.variableDecls := by
  induction l generalizing acc b with
  | nil => exact ⟨rfl, rfl⟩
  | cons e rest ih =>
      cases e with
      | id i => exact ih (acc ++ [i]) b
      | literal n =>
          have h1 := internConst_state b (ConstVal.uint n)
          have h2 := ih (acc ++ [(b.getUintConstant n).1]) (b.getUintConstant n).2
          rw [makeAccessChainIdListLoop]
          exact ⟨h2.1.trans h1.1, h2.2.trans h1.2⟩

/-- See `makeAccessChainIdListLoop_state`. -/
theorem makeAccessChainIdList_state (d : NodeData) (b : Builder) :
    (makeAccessChainIdList d b).2.block = b.block ∧
    (makeAccessChainIdList d b).2.variableDecls = b.variableDecls :=
  makeAccessChainIdListLoop_state d.idList [] b

/-- A record is not an rvalue exactly when its storage class is real. -/
theorem isRValue_false_iff (ac : AccessChain) :
    IsAccessChainRValue ac = false ↔ ac.storageClass ≠ StorageClass.Max := by
  simp [IsAccessChainRValue]

/-- When neither a swizzle nor a dynamic component is pending, the load
tail stage is the identity. -/
theorem accessChainLoadTails_id (ac : AccessChain) (r : Nat × NodeData × Builder)
    (h1 : ac.swizzles = []) (h2 : ac.dynamicComponent = 0) :
    accessChainLoadTails ac r = r := by
  simp [accessChainLoadTails, h1, h2, idValid]

/-- Collapsing only caches the materialized pointer: all other record
state is preserved. -/
theorem accessChainCollapse_preserves (d : NodeData) (b : Builder) (p : Nat)
    (d1 : NodeData) (b1 : Builder) (h : accessChainCollapse d b = some (p, d1, b1)) :
    d1.accessChain.preSwizzleTypeId = d.accessChain.preSwizzleTypeId ∧
    d1.accessChain.swizzles = d.accessChain.swizzles ∧
    d1.accessChain.dynamicComponent = d.accessChain.dynamicComponent ∧
    d1.idList = d.idList ∧ d1.baseId = d.baseId := by
  unfold accessChainCollapse at h
  split at h
  · exact absurd h (by simp)
  · split at h
    · injection h with h
      injection h with h1 h
      injection h with h2 h3
      subst h2
      exact ⟨rfl, rfl, rfl, rfl, rfl⟩
    · split at h
      · injection h with h
        injection h with h1 h
        injection h with h2 h3
        subst h2
        exact ⟨rfl, rfl, rfl, rfl, rfl⟩
      · injection h with h
        injection h with h1 h
        injection h with h2 h3
        subst h2
        exact ⟨rfl, rfl, rfl, rfl, rfl⟩

/-- Collapsing a fresh indexed lvalue chain emits exactly one
`OpAccessChain` from the base id over the materialized index ids, caches
the resulting pointer, and declares no variable. -/
theorem accessChainCollapse_emit (d : NodeData) (b : Builder)
    (h1 : d.accessChain.storageClass ≠ StorageClass.Max)
    (h2 : d.accessChain.accessChainId = 0) (h3 : d.idList ≠ []) :
    ∃ pointerId ptrTy b1,
      accessChainCollapse d b =
        some (pointerId,
          { d with accessChain := { d.accessChain with accessChainId := pointerId } }, b1) ∧
      b1.block = b.block ++
        [Instr.opAccessChain ptrTy pointerId d.baseId (makeAccessChainIdList d b).1] ∧
      b1.variableDecls = b.variableDecls := by
  have hie : d.idList.isEmpty = false := by
    cases hl : d.idList with
    | nil => exact absurd hl h3
    | cons x xs => rfl
  rw [accessChainCollapse]
  simp only [h1, if_false, h2, idValid, bne_self_eq_false, Bool.false_eq_true, hie]
  have hs1 := makeAccessChainIdList_state d b
  have hs2 := internType_state (makeAccessChainIdList d b).2
    (TypeKey.pointer d.accessChain.preSwizzleTypeId d.accessChain.storageClass)
  refine
    ⟨(((makeAccessChainIdList d b).2.getTypePointerId d.accessChain.preSwizzleTypeId
        d.accessChain.storageClass).2.getNewId).1,
     ((makeAccessChainIdList d b).2.getTypePointerId d.accessChain.preSwizzleTypeId
        d.accessChain.storageClass).1,
     (((makeAccessChainIdList d b).2.getTypePointerId d.accessChain.preSwizzleTypeId
          d.accessChain.storageClass).2.getNewId).2.emit
       (Instr.opAccessChain
         ((makeAccessChainIdList d b).2.getTypePointerId d.accessChain.preSwizzleTypeId
            d.accessChain.storageClass).1
         (((makeAccessChainIdList d b).2.getTypePointerId d.accessChain.preSwizzleTypeId
             d.accessChain.storageClass).2.getNewId).1
         d.baseId (makeAccessChainIdList d b).1),
     rfl, ?_, ?_⟩
  · show (_ : Builder).block ++ _ = _
    rw [show ((((makeAccessChainIdList d b).2.getTypePointerId
        d.accessChain.preSwizzleTypeId d.accessChain.storageClass).2.getNewId)).2.block =
        b.block from hs2.1.trans hs1.1]
  · show (_ : Builder).variableDecls = _
    exact hs2.2.trans hs1.2

/-- Extracting the literals of a pure-literal index list recovers it. -/
theorem filterMap_literal (l : List Nat) :
    (l.map SpirvIdOrLiteral.literal).filterMap
      (fun e =>
        match e with
        | SpirvIdOrLiteral.literal n => some n
        | SpirvIdOrLiteral.id _ => none) = l := by
  induction l with
  | nil => rfl
  | cons x xs ih => simp [ih]

/-- Claim C1: the load decision table of `accessChainLoad`.  (1) an rvalue
with no indices returns the base id with nothing emitted; (2) an rvalue
with (nonempty) all-literal indices emits exactly one
`OpCompositeExtract` carrying the concatenated literal path; (3) an
rvalue with a non-literal index spills the base id into a fresh
Function-class temporary via `OpStore`, retypes the record as a
Function-class lvalue based on that temporary, and loads via
`OpAccessChain` and `OpLoad`; (4) an lvalue loads via the collapse
operation followed by exactly one `OpLoad`; (5) collapse returns the base
id directly when there are no indices and otherwise materializes exactly
one `OpAccessChain`; afterwards (6) a pending multi-component swizzle
adds exactly one `OpVectorShuffle` and (7) a pending dynamic component
adds exactly one `OpVectorExtractDynamic`. -/
theorem accessChainLoad_decision_table :
    ∀ (d : NodeData) (b : Builder),
      (IsAccessChainRValue d.accessChain = true → d.idList = [] →
        d.accessChain.swizzles = [] → d.accessChain.dynamicComponent = 0 →
        accessChainLoad d b = some (d.baseId, d, b)) ∧
      (∀ lits : List Nat, IsAccessChainRValue d.accessChain = true →
        d.accessChain.areAllIndicesLiteral = true →
        d.idList = lits.map SpirvIdOrLiteral.literal → lits ≠ [] →
        d.accessChain.swizzles = [] → d.accessChain.dynamicComponent = 0 →
        accessChainLoad d b = some (b.nextId, d,
          { b with
              nextId := b.nextId + 1
              block := b.block ++
                [Instr.opCompositeExtract d.accessChain.preSwizzleTypeId b.nextId d.baseId
                  lits] })) ∧
      (IsAccessChainRValue d.accessChain = true →
        d.accessChain.areAllIndicesLiteral = false → d.idList ≠ [] →
        d.accessChain.accessChainId = 0 →
        d.accessChain.swizzles = [] → d.accessChain.dynamicComponent = 0 →
        ∃ (pointerId ptrTy : Nat) (idxIds : List Nat) (d2 : NodeData) (b2 : Builder),
          accessChainLoad d b = some (b2.nextId, d2,
            { b2 with
                nextId := b2.nextId + 1
                block := b2.block ++
                  [Instr.opLoad d.accessChain.preSwizzleTypeId b2.nextId pointerId] }) ∧
          d2.baseId = b.nextId ∧
          d2.accessChain.storageClass = StorageClass.Function ∧
          b2.variableDecls = b.variableDecls ++
            [(b.nextId, d.accessChain.preSwizzleTypeId, StorageClass.Function)] ∧
          b2.block = b.block ++
            [Instr.opStore b.nextId d.baseId,
             Instr.opAccessChain ptrTy pointerId b.nextId idxIds]) ∧
      (IsAccessChainRValue d.accessChain = false →
        d.accessChain.swizzles = [] → d.accessChain.dynamicComponent = 0 →
        ∃ (pointerId : Nat) (d1 : NodeData) (b1 : Builder),
          accessChainCollapse d b = some (pointerId, d1, b1) ∧
          accessChainLoad d b = some (b1.nextId, d1,
            { b1 with
                nextId := b1.nextId + 1
                block := b1.block ++
                  [Instr.opLoad d.accessChain.preSwizzleTypeId b1.nextId pointerId] })) ∧
      (d.accessChain.storageClass ≠ StorageClass.Max → d.accessChain.accessChainId = 0 →
        (d.idList = [] →
          accessChainCollapse d b = some (d.baseId,
            { d with accessChain := { d.accessChain with accessChainId := d.baseId } },
            b)) ∧
        (d.idList ≠ [] →
          ∃ (pointerId ptrTy : Nat) (b1 : Builder),
            accessChainCollapse d b = some (pointerId,
              { d with accessChain := { d.accessChain with accessChainId := pointerId } },
              b1) ∧
            b1.block = b.block ++
              [Instr.opAccessChain ptrTy pointerId d.baseId
                (makeAccessChainIdList d b).1])) ∧
      (IsAccessChainRValue d.accessChain = true → d.idList = [] →
        d.accessChain.swizzles ≠ [] → d.accessChain.dynamicComponent = 0 →
        accessChainLoad d b = some (b.nextId, d,
          { b with
              nextId := b.nextId + 1
              block := b.block ++
                [Instr.opVectorShuffle d.accessChain.postSwizzleTypeId b.nextId d.baseId
                  d.baseId d.accessChain.swizzles] })) ∧
      (IsAccessChainRValue d.accessChain = true → d.idList = [] →
        d.accessChain.swizzles = [] → idValid d.accessChain.dynamicComponent = true →
        accessChainLoad d b = some (b.nextId, d,
          { b with
              nextId := b.nextId + 1
              block := b.block ++
                [Instr.opVectorExtractDynamic d.accessChain.postDynamicComponentTypeId
                  b.nextId d.baseId d.accessChain.dynamicComponent] })) := by
  intro d b
  refine ⟨?_, ?_, ?_, ?_, ?_, ?_, ?_⟩
  · intro h0 h1 h4 h5
    have hbase : accessChainLoadBase d b = some (d.baseId, d, b) := by
      rw [accessChainLoadBase]
      simp [h0, h1]
    rw [accessChainLoad, hbase, Option.map_some', accessChainLoadTails_id d.accessChain _ h4 h5]
  · intro lits h0 hall hmap hne h4 h5
    have hlen : 0 < d.idList.length := by
      rw [hmap, List.length_map]
      exact List.length_pos.mpr hne
    have hmake : makeAccessChainLiteralList d = lits := by
      rw [makeAccessChainLiteralList, hmap]
      exact filterMap_literal lits
    have hbase : accessChainLoadBase d b = some (b.nextId, d,
        { b with
            nextId := b.nextId + 1
            block := b.block ++
              [Instr.opCompositeExtract d.accessChain.preSwizzleTypeId b.nextId d.baseId
                lits] }) := by
      rw [accessChainLoadBase]
      simp [h0, hall, hlen, hmake, Builder.getNewId, Builder.emit]
    rw [accessChainLoad, hbase, Option.map_some', accessChainLoadTails_id d.accessChain _ h4 h5]
  · intro h0 h1 h2 h3 h4 h5
    have hlen : 0 < d.idList.length := List.length_pos.mpr h2
    obtain ⟨pointerId, ptrTy, b1, hc, hblock, hdecls⟩ :=
      accessChainCollapse_emit
        { d with
            baseId := b.nextId
            accessChain := { d.accessChain with storageClass := StorageClass.Function } }
        (Builder.emit
          { b with
              nextId := b.nextId + 1
              variableDecls := b.variableDecls ++
                [(b.nextId, d.accessChain.preSwizzleTypeId, StorageClass.Function)] }
          (Instr.opStore b.nextId d.baseId))
        (by simp) h3 h2
    refine ⟨pointerId, ptrTy,
      (makeAccessChainIdList
        { d with
            baseId := b.nextId
            accessChain := { d.accessChain with storageClass := StorageClass.Function } }
        (Builder.emit
          { b with
              nextId := b.nextId + 1
              variableDecls := b.variableDecls ++
                [(b.nextId, d.accessChain.preSwizzleTypeId, StorageClass.Function)] }
          (Instr.opStore b.nextId d.baseId))).1,
      { d with
          baseId := b.nextId
          accessChain :=
            { d.accessChain with
                storageClass := StorageClass.Function
                accessChainId := pointerId } },
      b1, ?_, rfl, rfl, ?_, ?_⟩
    · have hbase : accessChainLoadBase d b = some (b1.nextId,
          { d with
              baseId := b.nextId
              accessChain :=
                { d.accessChain with
                    storageClass := StorageClass.Function
                    accessChainId := pointerId } },
          { b1 with
              nextId := b1.nextId + 1
              block := b1.block ++
                [Instr.opLoad d.accessChain.preSwizzleTypeId b1.nextId pointerId] }) := by
        have hc2 := hc
        simp only [Builder.emit, h1] at hc2
        rw [accessChainLoadBase]
        simp [h0, h1, hlen, Builder.declareVariable, Builder.getNewId, Builder.emit, hc2]
      rw [accessChainLoad, hbase, Option.map_some',
        accessChainLoadTails_id d.accessChain _ h4 h5]
    · exact hdecls
    · rw [hblock]
      simp [Builder.emit, List.append_assoc]
  · intro h0 h4 h5
    have hsc : d.accessChain.storageClass ≠ StorageClass.Max :=
      (isRValue_false_iff d.accessChain).mp h0
    obtain ⟨⟨p, d1, b1⟩, hcp⟩ := accessChainCollapse_isSome d b hsc
    obtain ⟨hpre, -, -, -, -⟩ := accessChainCollapse_preserves d b p d1 b1 hcp
    refine ⟨p, d1, b1, hcp, ?_⟩
    have hbase : accessChainLoadBase d b = some (b1.nextId, d1,
        { b1 with
            nextId := b1.nextId + 1
            block := b1.block ++
              [Instr.opLoad d.accessChain.preSwizzleTypeId b1.nextId p] }) := by
      rw [accessChainLoadBase]
      simp [h0, hcp, Builder.getNewId, Builder.emit, hpre]
    rw [accessChainLoad, hbase, Option.map_some', accessChainLoadTails_id d.accessChain _ h4 h5]
  · intro h1 h2
    constructor
    · intro hnil
      rw [accessChainCollapse]
      simp [h1, h2, idValid, hnil]
    · intro hne
      obtain ⟨p, t, b1, hc, hb, -⟩ := accessChainCollapse_emit d b h1 h2 hne
      exact ⟨p, t, b1, hc, hb⟩
  · intro h0 h1 h6 h5
    have hie : d.accessChain.swizzles.isEmpty = false := by
      cases hs : d.accessChain.swizzles with
      | nil => exact absurd hs h6
      | cons x xs => rfl
    have hbase : accessChainLoadBase d b = some (d.baseId, d, b) := by
      rw [accessChainLoadBase]
      simp [h0, h1]
    rw [accessChainLoad, hbase, Option.map_some', accessChainLoadTails]
    simp [hie, h5, idValid, Builder.getNewId, Builder.emit]
  · intro h0 h1 h4 h7
    have hbase : accessChainLoadBase d b = some (d.baseId, d, b) := by
      rw [accessChainLoadBase]
      simp [h0, h1]
    rw [accessChainLoad, hbase, Option.map_some', accessChainLoadTails]
    simp [h4, h7, Builder.getNewId, Builder.emit]

/-- Claim C4: the per-argument lowering of `createFunctionCall`.  Opaque
arguments, const parameters and unindexed-lvalue arguments are handled by
the direct branch: the record is resolved by `accessChainLoad` and the
result passed with no temporary and consequently no copy-back.  An in
(or const) parameter is always passed by loaded value: directly, or via
a fresh Function-class temporary initialized with the loaded value
before the call.  An out parameter whose argument is not an unindexed
lvalue gets an uninitialized Function-class temporary which is passed
and, after the call, loaded and stored back through the argument's
access chain; an inout parameter additionally initializes the temporary
with the argument's loaded value; an in parameter never copies back. -/
theorem createFunctionCall_param_lowering :
    ∀ (desc : CallParamDesc) (arg : NodeData) (b : Builder),
      ((desc.isOpaque = true ∨ desc.qualifier = Qualifier.qConst ∨
          IsAccessChainUnindexedLValue arg = true) →
        ∀ v arg2 b2, accessChainLoad arg b = some (v, arg2, b2) →
          lowerCallParam desc arg b = some (⟨desc, arg2, v, 0, 0⟩, b2)) ∧
      (∀ lp : LoweredParam, lp.tempVarId = 0 → callCopyBack lp b = some b) ∧
      (desc.isOpaque = false → desc.qualifier = Qualifier.qIn →
        IsAccessChainUnindexedLValue arg = false →
        ∀ v arg2 b2,
          accessChainLoad arg (b.declareVariable desc.typeId StorageClass.Function).2 =
            some (v, arg2, b2) →
          lowerCallParam desc arg b =
            some (⟨desc, arg2, b.nextId, b.nextId, desc.typeId⟩,
              b2.emit (Instr.opStore b.nextId v))) ∧
      (∀ lp : LoweredParam, lp.desc.qualifier = Qualifier.qIn →
        callCopyBack lp b = some b) ∧
      (desc.isOpaque = false → desc.qualifier = Qualifier.qOut →
        IsAccessChainUnindexedLValue arg = false →
        lowerCallParam desc arg b =
          some (⟨desc, arg, b.nextId, b.nextId, desc.typeId⟩,
            (b.declareVariable desc.typeId StorageClass.Function).2)) ∧
      (desc.isOpaque = false → desc.qualifier = Qualifier.qInOut →
        IsAccessChainUnindexedLValue arg = false →
        ∀ v arg2 b2,
          accessChainLoad arg (b.declareVariable desc.typeId StorageClass.Function).2 =
            some (v, arg2, b2) →
          lowerCallParam desc arg b =
            some (⟨desc, arg2, b.nextId, b.nextId, desc.typeId⟩,
              b2.emit (Instr.opStore b.nextId v))) ∧
      (∀ lp : LoweredParam, lp.tempVarId ≠ 0 →
        (lp.desc.qualifier = Qualifier.qOut ∨ lp.desc.qualifier = Qualifier.qInOut) →
        ∀ v d1 b1,
          accessChainLoad
            (nodeDataInitLValue lp.tempVarId lp.tempVarTypeId StorageClass.Function
              BlockStorage.unspecified) b = some (v, d1, b1) →
          callCopyBack lp b =
            (accessChainStore lp.record v b1).map (fun p => p.2)) := by
  intro desc arg b
  refine ⟨?_, ?_, ?_, ?_, ?_, ?_, ?_⟩
  · intro h v arg2 b2 hload
    rcases h with h | h | h <;> simp [lowerCallParam, h, hload]
  · intro lp h
    simp [callCopyBack, h, idValid]
  · intro h1 h2 h3 v arg2 b2 hload
    have hload2 := hload
    simp only [Builder.declareVariable, Builder.getNewId] at hload2
    simp [lowerCallParam, h1, h2, h3, hload2, Builder.declareVariable, Builder.getNewId]
  · intro lp h
    rw [callCopyBack]
    split
    · rfl
    · simp [h]
  · intro h1 h2 h3
    simp [lowerCallParam, h1, h2, h3, Builder.declareVariable, Builder.getNewId]
  · intro h1 h2 h3 v arg2 b2 hload
    have hload2 := hload
    simp only [Builder.declareVariable, Builder.getNewId] at hload2
    simp [lowerCallParam, h1, h2, h3, hload2, Builder.declareVariable, Builder.getNewId]
  · intro lp h0 hq v d1 b1 hload
    have hval : idValid lp.tempVarId = true := by simp [idValid, h0]
    have hnotin : ¬lp.desc.qualifier = Qualifier.qIn := by
      rcases hq with h | h <;> simp [h]
    rw [callCopyBack]
    simp only [hval, Bool.not_true, Bool.false_eq_true, if_false, hnotin, hload]
    cases hs : accessChainStore lp.record v b1 with
    | none => simp [hs]
    | some p => simp [hs]

/-- Claim C5: `createAtomicBuiltIn` collapses the first argument to a
pointer and loads the remaining arguments as rvalues; the scope operand
is always the interned Device constant and the memory-semantics operand
always the interned Relaxed (mask-none) constant; Min/Max pick the
unsigned opcode exactly when `isUnsigned` (the first argument's basic
type is uint); and `atomicCompSwap` emits `OpAtomicCompareExchange`
whose value operand is the loaded third source argument and whose
comparator operand is the loaded second source argument — the reverse of
the source order. -/
theorem createAtomicBuiltIn_contract :
    (∀ (op : AtomicOp) (isUnsigned : Bool) (resultTypeId : Nat) (a0 a1 : NodeData)
        (b : Builder) (opcode : AtomicOpcode),
      atomicOpcodeFor op isUnsigned = some opcode →
      ∀ pointerId d0 b0, accessChainCollapse a0 b = some (pointerId, d0, b0) →
      ∀ v1 d1 b1, accessChainLoad a1 b0 = some (v1, d1, b1) →
      ∃ (result : Nat) (b2 : Builder),
        createAtomicBuiltIn op isUnsigned resultTypeId [a0, a1] b = some (result, b2) ∧
        b2.block = b1.block ++
          [Instr.opAtomic opcode resultTypeId result pointerId
            (b1.getUintConstant scopeDevice).1
            ((b1.getUintConstant scopeDevice).2.getUintConstant
              memorySemanticsMaskNone).1 v1]) ∧
    (∀ (isUnsigned : Bool) (resultTypeId : Nat) (a0 a1 a2 : NodeData) (b : Builder),
      ∀ pointerId d0 b0, accessChainCollapse a0 b = some (pointerId, d0, b0) →
      ∀ v1 d1 b1, accessChainLoad a1 b0 = some (v1, d1, b1) →
      ∀ v2 d2 b2, accessChainLoad a2 b1 = some (v2, d2, b2) →
      ∃ (result : Nat) (b3 : Builder),
        createAtomicBuiltIn AtomicOp.compSwap isUnsigned resultTypeId [a0, a1, a2] b =
          some (result, b3) ∧
        b3.block = b2.block ++
          [Instr.opAtomicCompareExchange resultTypeId result pointerId
            (b2.getUintConstant scopeDevice).1
            ((b2.getUintConstant scopeDevice).2.getUintConstant
              memorySemanticsMaskNone).1
            ((b2.getUintConstant scopeDevice).2.getUintConstant
              memorySemanticsMaskNone).1
            v2 v1]) ∧
    atomicOpcodeFor AtomicOp.min true = some AtomicOpcode.UMin ∧
    atomicOpcodeFor AtomicOp.min false = some AtomicOpcode.SMin ∧
    atomicOpcodeFor AtomicOp.max true = some AtomicOpcode.UMax ∧
    atomicOpcodeFor AtomicOp.max false = some AtomicOpcode.SMax := by
  refine ⟨?_, ?_, rfl, rfl, rfl, rfl⟩
  · intro op isUnsigned resultTypeId a0 a1 b opcode hop pointerId d0 b0 hc v1 d1 b1 hl
    have hop2 : op ≠ AtomicOp.compSwap := by
      intro he
      rw [he] at hop
      simp [atomicOpcodeFor] at hop
    refine ⟨(((b1.getUintConstant scopeDevice).2.getUintConstant
        memorySemanticsMaskNone).2).nextId,
      ((((b1.getUintConstant scopeDevice).2.getUintConstant
          memorySemanticsMaskNone).2).getNewId).2.emit
        (Instr.opAtomic opcode resultTypeId
          (((b1.getUintConstant scopeDevice).2.getUintConstant
              memorySemanticsMaskNone).2).nextId
          pointerId (b1.getUintConstant scopeDevice).1
          ((b1.getUintConstant scopeDevice).2.getUintConstant memorySemanticsMaskNone).1
          v1),
      ?_, ?_⟩
    · rw [createAtomicBuiltIn]
      simp only [List.isEmpty_cons, Bool.false_eq_true, if_false, hc, loadAll, hl]
      cases op
      case compSwap => exact absurd rfl hop2
      all_goals
        simp only [atomicOpcodeFor, Option.some.injEq] at hop
        subst hop
        simp [atomicOpcodeFor, Builder.getNewId]
    · show (_ : Builder).block ++ _ = _
      rw [show (((b1.getUintConstant scopeDevice).2.getUintConstant
            memorySemanticsMaskNone).2.getNewId).2.block = b1.block from
          (internConst_state (b1.getUintConstant scopeDevice).2
            (ConstVal.uint memorySemanticsMaskNone)).1.trans
            (internConst_state b1 (ConstVal.uint scopeDevice)).1]
  · intro isUnsigned resultTypeId a0 a1 a2 b pointerId d0 b0 hc v1 d1 b1 hl1 v2 d2 b2 hl2
    refine ⟨(((b2.getUintConstant scopeDevice).2.getUintConstant
        memorySemanticsMaskNone).2).nextId,
      ((((b2.getUintConstant scopeDevice).2.getUintConstant
          memorySemanticsMaskNone).2).getNewId).2.emit
        (Instr.opAtomicCompareExchange resultTypeId
          (((b2.getUintConstant scopeDevice).2.getUintConstant
              memorySemanticsMaskNone).2).nextId
          pointerId (b2.getUintConstant scopeDevice).1
          ((b2.getUintConstant scopeDevice).2.getUintConstant memorySemanticsMaskNone).1
          ((b2.getUintConstant scopeDevice).2.getUintConstant memorySemanticsMaskNone).1
          v2 v1),
      ?_, ?_⟩
    · rw [createAtomicBuiltIn]
      simp only [List.isEmpty_cons, Bool.false_eq_true, if_false, hc, loadAll, hl1, hl2]
      simp [Builder.getNewId]
    · show (_ : Builder).block ++ _ = _
      rw [show (((b2.getUintConstant scopeDevice).2.getUintConstant
            memorySemanticsMaskNone).2.getNewId).2.block = b2.block from
          (internConst_state (b2.getUintConstant scopeDevice).2
            (ConstVal.uint memorySemanticsMaskNone)).1.trans
            (internConst_state b2 (ConstVal.uint scopeDevice)).1]

/-- Claim C9: a swizzle that selects all components of the operand vector
in their original order is exactly what `isIdentitySwizzle` detects
(the swizzle list equals `List.range` of the vector size), and for such a
swizzle the PostVisit of `visitSwizzle` leaves the operand's synthesis
record unchanged and touches no builder state, so loading the swizzled
expression is the same as loading the operand. -/
theorem visitSwizzle_identity_noop :
    ∀ (d : NodeData) (swizzle : List Nat) (typeId vecSize : Nat) (b : Builder),
      (isIdentitySwizzle swizzle vecSize = true ↔ swizzle = List.range vecSize) ∧
      (isIdentitySwizzle swizzle vecSize = true →
        visitSwizzlePost d swizzle typeId vecSize = d ∧
        accessChainLoad (visitSwizzlePost d swizzle typeId vecSize) b =
          accessChainLoad d b) := by
  intro d swizzle typeId vecSize b
  constructor
  · constructor
    · intro h
      simp only [isIdentitySwizzle, Bool.and_eq_true, beq_iff_eq, List.all_eq_true,
        List.mem_range] at h
      apply List.ext_getElem
      · simp [h.1]
      · intro i h1 h2
        have hi := h.2 i h1
        rw [List.getD_eq_getElem swizzle 0 h1] at hi
        rw [hi, List.getElem_range]
    · intro h
      subst h
      simp only [isIdentitySwizzle, List.length_range, beq_self_eq_true, Bool.true_and,
        List.all_eq_true, List.mem_range, beq_iff_eq]
      intro i hi
      have hlen : i < (List.range vecSize).length := by simpa using hi
      rw [List.getD_eq_getElem (List.range vecSize) 0 hlen, List.getElem_range]
  · intro h
    refine ⟨?_, ?_⟩ <;> simp [visitSwizzlePost, h]

/-- Writing another index of a list leaves a `getD` read unchanged. -/
theorem getD_set_ne (l : List Nat) (i j v : Nat) (h : i ≠ j) :
    (l.set i v).getD j 0 = l.getD j 0 := by
  induction l generalizing i j with
  | nil => simp
  | cons a rest ih =>
      cases i with
      | zero =>
          cases j with
          | zero => exact absurd rfl h
          | succ j => simp
      | succ i =>
          cases j with
          | zero => simp
          | succ j => simpa using ih i j (by omega)

/-- Writing an in-bounds index of a list is read back by `getD`. -/
theorem getD_set_self (l : List Nat) (i v : Nat) (h : i < l.length) :
    (l.set i v).getD i 0 = v := by
  induction l generalizing i with
  | nil => simp at h
  | cons a rest ih =>
      cases i with
      | zero => simp
      | succ i => simpa using ih i (by simpa using h)

/-- The store-mask loop preserves the mask length. -/
theorem storeSwizzleMaskLoop_length (swz : List Nat) (src count : Nat) (mask : List Nat) :
    (storeSwizzleMaskLoop swz src count mask).length = mask.length := by
  induction swz generalizing src mask with
  | nil => rfl
  | cons dst rest ih => simp [storeSwizzleMaskLoop, ih]

/-- Lanes not in the swizzle keep their incoming mask entry. -/
theorem storeSwizzleMaskLoop_getD_not_mem (swz : List Nat) (src count lane : Nat)
    (mask : List Nat) (h : lane ∉ swz) :
    (storeSwizzleMaskLoop swz src count mask).getD lane 0 = mask.getD lane 0 := by
  induction swz generalizing src mask with
  | nil => rfl
  | cons dst rest ih =>
      have hne : dst ≠ lane := fun he => h (he ▸ List.mem_cons_self dst rest)
      have hrest : lane ∉ rest := fun he => h (List.mem_cons_of_mem dst he)
      rw [storeSwizzleMaskLoop, ih (src + 1) (mask.set dst (count + src)) hrest,
        getD_set_ne mask dst lane (count + src) hne]

/-- The swizzled destination lane at position `s` of the swizzle list is
routed to source component `count + src + s`. -/
theorem storeSwizzleMaskLoop_getD_mem (swz : List Nat) (src count : Nat) (mask : List Nat)
    (hnd : swz.Nodup) (s : Nat) (hs : s < swz.length) (hlt : swz.getD s 0 < mask.length) :
    (storeSwizzleMaskLoop swz src count mask).getD (swz.getD s 0) 0 = count + src + s := by
  induction swz generalizing src mask s with
  | nil => simp at hs
  | cons dst rest ih =>
      cases s with
      | zero =>
          have hdst : dst ∉ rest := (List.nodup_cons.mp hnd).1
          rw [storeSwizzleMaskLoop]
          have hlane : (dst :: rest).getD 0 0 = dst := rfl
          rw [hlane] at hlt ⊢
          rw [storeSwizzleMaskLoop_getD_not_mem rest (src + 1) count dst _ hdst,
            getD_set_self mask dst (count + src) hlt]
          omega
      | succ s =>
          have hlane : (dst :: rest).getD (s + 1) 0 = rest.getD s 0 := rfl
          rw [hlane] at hlt ⊢
          rw [storeSwizzleMaskLoop]
          have := ih (src + 1) (mask.set dst (count + src)) (List.nodup_cons.mp hnd).2 s
            (by simpa using hs) (by simpa using hlt)
          rw [this]
          omega

/-- Length of the full store mask. -/
theorem storeSwizzleMask_length (count : Nat) (swz : List Nat) :
    (storeSwizzleMask count swz).length = count := by
  rw [storeSwizzleMask, storeSwizzleMaskLoop_length, List.length_range]

/-- The store mask is the identity on unswizzled lanes. -/
theorem storeSwizzleMask_getD_not_mem (count : Nat) (swz : List Nat) (lane : Nat)
    (hlane : lane < count) (h : lane ∉ swz) :
    (storeSwizzleMask count swz).getD lane 0 = lane := by
  rw [storeSwizzleMask, storeSwizzleMaskLoop_getD_not_mem swz 0 count lane _ h,
    List.getD_eq_getElem _ _ (by simpa using hlane), List.getElem_range]

/-- The store mask routes the lane written by swizzle position `s` to
component `count + s` (a component of the stored value). -/
theorem storeSwizzleMask_getD_mem (count : Nat) (swz : List Nat) (s : Nat)
    (hnd : swz.Nodup) (hs : s < swz.length) (hlt : swz.getD s 0 < count) :
    (storeSwizzleMask count swz).getD (swz.getD s 0) 0 = count + s := by
  rw [storeSwizzleMask,
    storeSwizzleMaskLoop_getD_mem swz 0 count _ hnd s hs (by simpa using hlt)]
  omega

/-- Claim C2: storing through an access chain that ends in a pending
multi-component swizzle loads the current vector, applies one
`OpVectorShuffle` whose mask is the identity on unswizzled destination
lanes and routes each swizzled destination lane to the corresponding
component of the stored value, and stores the shuffled vector back; in
particular for v = (a,b,c,d), the store v.zx = (p,q) yields (q,b,p,d). -/
theorem accessChainStore_swizzle_semantics :
    (∀ (d : NodeData) (value : Nat) (b : Builder),
      d.accessChain.storageClass ≠ StorageClass.Max →
      d.accessChain.accessChainId = 0 →
      d.idList = [] →
      d.accessChain.dynamicComponent = 0 →
      2 ≤ d.accessChain.swizzles.length →
      accessChainStore d value b =
        some ({ d with accessChain := { d.accessChain with accessChainId := d.baseId } },
          { b with
              nextId := b.nextId + 2
              block := b.block ++
                [Instr.opLoad d.accessChain.preSwizzleTypeId b.nextId d.baseId,
                 Instr.opVectorShuffle d.accessChain.postSwizzleTypeId (b.nextId + 1)
                   b.nextId value
                   (storeSwizzleMask d.accessChain.swizzledVectorComponentCount
                     d.accessChain.swizzles),
                 Instr.opStore d.baseId (b.nextId + 1)] })) ∧
    (∀ (v u : List Int) (n : Nat) (swz : List Nat),
      v.length = n → swz.Nodup → (∀ x ∈ swz, x < n) →
      (vectorShuffleEval v u (storeSwizzleMask n swz)).length = n ∧
      (∀ lane, lane < n → lane ∉ swz →
        (vectorShuffleEval v u (storeSwizzleMask n swz)).getD lane 0 = v.getD lane 0) ∧
      (∀ s, s < swz.length →
        (vectorShuffleEval v u (storeSwizzleMask n swz)).getD (swz.getD s 0) 0 =
          u.getD s 0)) ∧
    (∀ (a b c d p q : Int),
      vectorShuffleEval [a, b, c, d] [p, q] (storeSwizzleMask 4 [2, 0]) = [q, b, p, d]) := by
  refine ⟨?_, ?_, ?_⟩
  · intro d value b h1 h2 h3 h4 h5
    have hlen1 : ¬d.accessChain.swizzles.length = 1 := by omega
    have hne : d.accessChain.swizzles ≠ [] := by
      intro he
      rw [he] at h5
      simp at h5
    rw [accessChainStore]
    simp only [hlen1, if_false, h4, idValid]
    rw [accessChainCollapse]
    simp only [h1, if_false, h2, idValid, h3]
    simp [hne, Builder.getNewId, Builder.emit, List.append_assoc]
    exact h4
  · intro v u n swz hv hnd hbound
    have hmasklen : (storeSwizzleMask n swz).length = n := storeSwizzleMask_length n swz
    refine ⟨by simp [vectorShuffleEval, hmasklen], ?_, ?_⟩
    · intro lane hlane hmem
      have hlt : lane < (storeSwizzleMask n swz).length := by omega
      have hlt2 : lane < (vectorShuffleEval v u (storeSwizzleMask n swz)).length := by
        simpa [vectorShuffleEval, hmasklen] using hlane
      rw [List.getD_eq_getElem _ _ hlt2]
      simp only [vectorShuffleEval, List.getElem_map]
      rw [← List.getD_eq_getElem (storeSwizzleMask n swz) 0 hlt,
        storeSwizzleMask_getD_not_mem n swz lane hlane hmem,
        List.getD_append v u 0 lane (by omega)]
    · intro s hs
      have hlanemem : swz.getD s 0 ∈ swz := by
        rw [List.getD_eq_getElem swz 0 hs]
        exact List.getElem_mem hs
      have hlane : swz.getD s 0 < n := hbound _ hlanemem
      have hlt : swz.getD s 0 < (storeSwizzleMask n swz).length := by omega
      have hlen2 : (vectorShuffleEval v u (storeSwizzleMask n swz)).length = n := by
        simp [vectorShuffleEval, hmasklen]
      have hlt2 : swz.getD s 0 < (vectorShuffleEval v u (storeSwizzleMask n swz)).length := by
        rw [hlen2]
        exact hlane
      rw [List.getD_eq_getElem _ _ hlt2]
      simp only [vectorShuffleEval, List.getElem_map]
      rw [← List.getD_eq_getElem (storeSwizzleMask n swz) 0 hlt,
        storeSwizzleMask_getD_mem n swz s hnd hs hlane,
        List.getD_append_right v u 0 (n + s) (by omega), hv]
      congr 1
      omega
  · intro a b c d p q
    rfl

/-- Claim C3, evaluated: constructing a mat3 from a mat2 argument through
the identity-overlay branch.  The code's component rule
(`matrixFromMatrixComponent`) extracts from the parameter whenever the
row index is within the parameter's rows — even for column 2, which the
2-column parameter does not have — and fills the remaining components
with the constant 0 on the diagonal and 1 off the diagonal, the
opposite of the identity matrix; the spec's rule
(`specMatrixFromMatrixComponent`) disagrees at those components.  The
last conjunct evaluates the full generator function at this input. -/
theorem createConstructorMatrixFromMatrix_small_eval :
    matrixFromMatrixGrid BasicType.float 2 3 3 =
      [[MatEntry.extract 0 0, MatEntry.extract 0 1,
        MatEntry.constant (ConstVal.float 1)],
       [MatEntry.extract 1 0, MatEntry.extract 1 1,
        MatEntry.constant (ConstVal.float 1)],
       [MatEntry.extract 2 0, MatEntry.extract 2 1,
        MatEntry.constant (ConstVal.float 0)]] ∧
    matrixFromMatrixComponent BasicType.float 2 2 2 =
      MatEntry.constant (ConstVal.float 0) ∧
    specMatrixFromMatrixComponent BasicType.float 2 2 2 2 =
      MatEntry.constant (ConstVal.float 1) ∧
    matrixFromMatrixComponent BasicType.float 2 2 2 ≠
      specMatrixFromMatrixComponent BasicType.float 2 2 2 2 ∧
    matrixFromMatrixComponent BasicType.float 2 2 0 = MatEntry.extract 2 0 ∧
    specMatrixFromMatrixComponent BasicType.float 2 2 2 0 =
      MatEntry.constant (ConstVal.float 0) ∧
    createConstructorMatrixFromMatrix BasicType.float 3 3 2 2 100 101 102 103 104
        Builder.init =
      (12,
       { nextId := 13
         constTable := [(ConstVal.float 1, 3), (ConstVal.float 0, 10)]
         typeTable := []
         typeConstantDecls := []
         variableDecls := []
         block :=
           [Instr.opCompositeExtract 104 1 100 [0, 0],
            Instr.opCompositeExtract 104 2 100 [0, 1],
            Instr.opCompositeConstruct 102 4 [1, 2, 3],
            Instr.opCompositeExtract 104 5 100 [1, 0],
            Instr.opCompositeExtract 104 6 100 [1, 1],
            Instr.opCompositeConstruct 102 7 [5, 6, 3],
            Instr.opCompositeExtract 104 8 100 [2, 0],
            Instr.opCompositeExtract 104 9 100 [2, 1],
            Instr.opCompositeConstruct 102 11 [8, 9, 10],
            Instr.opCompositeConstruct 101 12 [4, 7, 11]]
         doneBlocks := []
         condStack := []
         terminated := false }) := by
  refine ⟨rfl, rfl, rfl, by decide, rfl, rfl, rfl⟩

/-- Claim C6, evaluated: constructing a matrix with more columns than
rows (mat3x2) from a single scalar makes the column loop write
`componentIds[2]` into a component vector of length 2 — an out-of-bounds
`std::vector` write, modelled as failure — while for a square matrix
(mat2) the loop produces exactly the claimed columns: the scalar (id 10)
on the diagonal and zero (id 11) elsewhere, one `OpCompositeConstruct`
per column and one final `OpCompositeConstruct` of the columns. -/
theorem createConstructorMatrixFromScalar_eval :
    createConstructorMatrixFromScalar 3 2 10 11 12 13 Builder.init = none ∧
    createConstructorMatrixFromScalar 2 2 10 11 12 13 Builder.init =
      some (3,
        { nextId := 4
          constTable := []
          typeTable := []
          typeConstantDecls := []
          variableDecls := []
          block :=
            [Instr.opCompositeConstruct 13 1 [10, 11],
             Instr.opCompositeConstruct 13 2 [11, 10],
             Instr.opCompositeConstruct 12 3 [1, 2]]
          doneBlocks := []
          condStack := []
          terminated := false }) := by
  exact ⟨rfl, rfl⟩

/-- Claim C7: the push operations maintain the store-path preconditions —
a dynamic component pushed onto an lvalue chain is always folded into the
index list (the record's `dynamicComponent` field is untouched), a
swizzle push never leaves a pending swizzle of exactly one component —
and under those preconditions (lvalue record, folded dynamic component,
no single-component swizzle) every assertion on the store path holds and
`accessChainStore` reaches the `OpStore`, so the error branch is
unreachable. -/
theorem accessChainStore_assertions_unreachable :
    ∀ (d : NodeData) (value index typeId : Nat) (b : Builder),
      (d.accessChain.storageClass ≠ StorageClass.Max →
        ((accessChainPushDynamicComponent d index typeId b).1).accessChain.dynamicComponent =
          d.accessChain.dynamicComponent) ∧
      (∀ swizzle componentCount, d.accessChain.swizzles = [] →
        ((accessChainPushSwizzle d swizzle typeId
            componentCount).accessChain.swizzles).length ≠ 1) ∧
      (d.accessChain.storageClass ≠ StorageClass.Max →
        idValid d.accessChain.dynamicComponent = false →
        d.accessChain.swizzles.length ≠ 1 →
        ∃ r, accessChainStore d value b = some r) := by
  intro d value index typeId b
  refine ⟨?_, ?_, ?_⟩
  · intro h
    have hrv : IsAccessChainRValue d.accessChain = false := by
      simp [IsAccessChainRValue, h]
    unfold accessChainPushDynamicComponent
    simp only [hrv, Bool.false_and, Bool.false_eq_true, if_false]
    split <;> simp [accessChainPush]
  · intro swizzle componentCount hempty
    unfold accessChainPushSwizzle
    split
    · simp [accessChainPushLiteral, hempty]
    · simp only [hempty]
      simpa using (by assumption : ¬swizzle.length = 1)
  · intro h1 h2 h3
    obtain ⟨⟨acId, d', b'⟩, hc⟩ := accessChainCollapse_isSome d b h1
    unfold accessChainStore
    simp [h3, h2, hc]

/-- `visitAggregatePost` pops exactly the child records: on success the
stack shrinks by `count`. -/
theorem visitAggregatePost_stack_length (desc : AggDesc) (count : Nat) (st st' : TravState)
    (h : visitAggregatePost desc count st = some st') :
    st'.stack.length + count = st.stack.length := by
  rw [visitAggregatePost] at h
  split at h
  · exact absurd h (by simp)
  · rename_i hcount
    split at h
    · exact absurd h (by simp)
    · rename_i run result hrun
      split at h
      · exact absurd h (by simp)
      · rename_i own below hdrop
        have hlen : (st.stack.drop count).length = st.stack.length - count :=
          List.length_drop count st.stack
        rw [hdrop] at hlen
        simp only [List.length_cons] at hlen
        split at h <;>
          (injection h with h
           subst h
           simp only [List.length_cons]
           omega)

mutual

/-- A successfully traversed expression pushes exactly one synthesis
record. -/
theorem traverseExpr_stack_length (e : Expr) :
    ∀ st st', traverseExpr e st = some st' → st'.stack.length = st.stack.length + 1 := by
  match e with
  | Expr.symbolLValue baseId typeId sc bs =>
      intro st st' h
      injection h with h
      subst h
      rfl
  | Expr.symbolConst baseId typeId =>
      intro st st' h
      injection h with h
      subst h
      rfl
  | Expr.constantU constId typeId =>
      intro st st' h
      injection h with h
      subst h
      rfl
  | Expr.swizzleNode offsets typeId vecSize operand =>
      intro st st' h
      rw [traverseExpr] at h
      split at h
      · exact absurd h (by simp)
      · rename_i st1 h1
        have ih := traverseExpr_stack_length operand st st1 h1
        split at h
        · exact absurd h (by simp)
        · rename_i d rest hst
          injection h with h
          subst h
          simp only [List.length_cons]
          rw [hst] at ih
          simp only [List.length_cons] at ih
          omega
  | Expr.indexDirect lit typeId base =>
      intro st st' h
      rw [traverseExpr] at h
      split at h
      · exact absurd h (by simp)
      · rename_i st1 h1
        have ih := traverseExpr_stack_length base st st1 h1
        split at h
        · exact absurd h (by simp)
        · rename_i d rest hst
          injection h with h
          subst h
          simp only [List.length_cons]
          rw [hst] at ih
          simp only [List.length_cons] at ih
          omega
  | Expr.indexIndirect baseIsVector typeId base index =>
      intro st st' h
      rw [traverseExpr] at h
      split at h
      · exact absurd h (by simp)
      · rename_i st1 h1
        have ih1 := traverseExpr_stack_length base st st1 h1
        split at h
        · exact absurd h (by simp)
        · rename_i st2 h2
          have ih2 := traverseExpr_stack_length index st1 st2 h2
          split at h
          · rename_i rd ld rest hst
            split at h
            · exact absurd h (by simp)
            · rename_i p hp
              rw [hst] at ih2
              simp only [List.length_cons] at ih2
              split at h <;>
                (injection h with h
                 subst h
                 simp only [List.length_cons]
                 omega)
          · exact absurd h (by simp)
  | Expr.assign lhs rhs =>
      intro st st' h
      rw [traverseExpr] at h
      split at h
      · exact absurd h (by simp)
      · rename_i st1 h1
        have ih1 := traverseExpr_stack_length lhs st st1 h1
        split at h
        · exact absurd h (by simp)
        · rename_i st2 h2
          have ih2 := traverseExpr_stack_length rhs st1 st2 h2
          split at h
          · rename_i rd ld rest hst
            split at h
            · exact absurd h (by simp)
            · rename_i p hp
              split at h
              · exact absurd h (by simp)
              · rename_i q hq
                injection h with h
                subst h
                rw [hst] at ih2
                simp only [List.length_cons] at ih2
                simp only [List.length_cons]
                omega
          · exact absurd h (by simp)
  | Expr.arith tag typeId lhs rhs =>
      intro st st' h
      rw [traverseExpr] at h
      split at h
      · exact absurd h (by simp)
      · rename_i st1 h1
        have ih1 := traverseExpr_stack_length lhs st st1 h1
        split at h
        · exact absurd h (by simp)
        · rename_i st2 h2
          have ih2 := traverseExpr_stack_length rhs st1 st2 h2
          split at h
          · rename_i rd ld rest hst
            split at h
            · exact absurd h (by simp)
            · rename_i p hp
              split at h
              · exact absurd h (by simp)
              · rename_i q hq
                injection h with h
                subst h
                rw [hst] at ih2
                simp only [List.length_cons] at ih2
                simp only [List.length_cons]
                omega
          · exact absurd h (by simp)
  | Expr.aggregate desc args =>
      intro st st' h
      rw [traverseExpr] at h
      split at h
      · exact absurd h (by simp)
      · rename_i st1 h1
        have ih := traverseExprList_stack_length args _ st1 h1
        have hpost := visitAggregatePost_stack_length desc args.length st1 st' h
        simp only [List.length_cons] at ih
        omega

/-- A successfully traversed argument list pushes exactly one record per
argument. -/
theorem traverseExprList_stack_length (es : ExprList) :
    ∀ st st', traverseExprList es st = some st' →
      st'.stack.length = st.stack.length + es.length := by
  match es with
  | ExprList.nil =>
      intro st st' h
      injection h with h
      subst h
      simp [ExprList.length]
  | ExprList.cons e rest =>
      intro st st' h
      rw [traverseExprList] at h
      split at h
      · exact absurd h (by simp)
      · rename_i st1 h1
        have ih1 := traverseExpr_stack_length e st st1 h1
        have ih2 := traverseExprList_stack_length rest st1 st' h
        simp only [ExprList.length]
        omega

end


/-- Popping a record on success shrinks the stack by exactly one. -/
theorem popRecord_length (st st2 : TravState) (h : popRecord st = some st2) :
    st.stack.length = st2.stack.length + 1 := by
  rw [popRecord] at h
  split at h
  · exact absurd h (by simp)
  · rename_i x rest hst
    injection h with h
    subst h
    simp [hst]

mutual

/-- A successfully traversed statement changes the stack height by its
net record count. -/
theorem traverseStmt_net (s : Stmt) :
    ∀ st st', traverseStmt s st = some st' →
      (st'.stack.length : Int) = st.stack.length + stmtNet s := by
  match s with
  | Stmt.exprStmt e =>
      intro st st' h
      have := traverseExpr_stack_length e st st' h
      simp only [stmtNet]
      omega
  | Stmt.declPlain typeId sc =>
      intro st st' h
      injection h with h
      subst h
      simp [stmtNet]
  | Stmt.declInit typeId sc init =>
      intro st st' h
      rw [traverseStmt] at h
      split at h
      · exact absurd h (by simp)
      · rename_i st1 h1
        have ih := traverseExpr_stack_length init _ st1 h1
        simp only [List.length_cons] at ih
        split at h
        · exact absurd h (by simp)
        · rename_i initData rest hst
          rw [hst] at ih
          simp only [List.length_cons] at ih
          split at h
          · injection h with h
            subst h
            simp only [stmtNet]
            omega
          · split at h
            · exact absurd h (by simp)
            · rename_i p hp
              injection h with h
              subst h
              simp only [stmtNet]
              omega
  | Stmt.retVoid =>
      intro st st' h
      injection h with h
      subst h
      simp [stmtNet]
  | Stmt.retExpr e =>
      intro st st' h
      rw [traverseStmt] at h
      split at h
      · exact absurd h (by simp)
      · rename_i st1 h1
        have ih := traverseExpr_stack_length e _ st1 h1
        simp only [List.length_cons] at ih
        split at h
        · exact absurd h (by simp)
        · rename_i d rest hst
          rw [hst] at ih
          simp only [List.length_cons] at ih
          split at h
          · exact absurd h (by simp)
          · rename_i p hp
            injection h with h
            subst h
            simp only [stmtNet]
            omega
  | Stmt.ifThen cond trueBody =>
      intro st st' h
      rw [traverseStmt] at h
      split at h
      · exact absurd h (by simp)
      · rename_i st1 h1
        have ih := traverseExpr_stack_length cond st st1 h1
        split at h
        · exact absurd h (by simp)
        · rename_i condData rest hst
          rw [hst] at ih
          simp only [List.length_cons] at ih
          split at h
          · exact absurd h (by simp)
          · rename_i p hp
            simp only [Builder.getNewId] at h
            split at h
            · exact absurd h (by simp)
            · rename_i st2 h2
              have ihb := traverseBlockStmts_net trueBody _ st2 h2
              simp only [TravState.stack, List.length_cons] at ihb
              injection h with h
              subst h
              simp only [stmtNet]
              omega
  | Stmt.ifThenElse cond trueBody falseBody =>
      intro st st' h
      rw [traverseStmt] at h
      split at h
      · exact absurd h (by simp)
      · rename_i st1 h1
        have ih := traverseExpr_stack_length cond st st1 h1
        split at h
        · exact absurd h (by simp)
        · rename_i condData rest hst
          rw [hst] at ih
          simp only [List.length_cons] at ih
          split at h
          · exact absurd h (by simp)
          · rename_i p hp
            simp only [Builder.getNewId] at h
            split at h
            · exact absurd h (by simp)
            · rename_i st2 h2
              have ihb := traverseBlockStmts_net trueBody _ st2 h2
              simp only [TravState.stack, List.length_cons] at ihb
              split at h
              · exact absurd h (by simp)
              · rename_i st3 h3
                have ihc := traverseBlockStmts_net falseBody _ st3 h3
                simp only [TravState.stack] at ihc
                injection h with h
                subst h
                simp only [stmtNet]
                omega
  | Stmt.subBlock body =>
      intro st st' h
      have := traverseBlockStmts_net body st st' h
      simp only [stmtNet]
      omega

/-- A successfully traversed block-child list changes the stack height by
its net record count. -/
theorem traverseBlockStmts_net (l : StmtList) :
    ∀ st st', traverseBlockStmts l st = some st' →
      (st'.stack.length : Int) = st.stack.length + listNet l := by
  match l with
  | StmtList.nil =>
      intro st st' h
      injection h with h
      subst h
      simp [listNet]
  | StmtList.cons s rest =>
      intro st st' h
      rw [traverseBlockStmts] at h
      split at h
      · exact absurd h (by simp)
      · rename_i st1 h1
        have ih1 := traverseStmt_net s st st1 h1
        split at h
        · exact absurd h (by simp)
        · rename_i st2 h2
          have hpop := popRecord_length st1 st2 h2
          have ih2 := traverseBlockStmts_net rest st2 st' h
          simp only [listNet]
          omega

end


mutual

/-- No statement ever nets more than one record. -/
theorem stmtNet_le_one (s : Stmt) : stmtNet s ≤ 1 := by
  match s with
  | Stmt.exprStmt _ => simp [stmtNet]
  | Stmt.declPlain _ _ => simp [stmtNet]
  | Stmt.declInit _ _ _ => simp [stmtNet]
  | Stmt.retVoid => simp [stmtNet]
  | Stmt.retExpr _ => simp [stmtNet]
  | Stmt.ifThen _ tb =>
      have := listNet_nonpos tb
      simp only [stmtNet]
      omega
  | Stmt.ifThenElse _ tb fb =>
      have h1 := listNet_nonpos tb
      have h2 := listNet_nonpos fb
      simp only [stmtNet]
      omega
  | Stmt.subBlock body =>
      have := listNet_nonpos body
      simp only [stmtNet]
      omega

/-- A block's child list never nets a positive record count. -/
theorem listNet_nonpos (l : StmtList) : listNet l ≤ 0 := by
  match l with
  | StmtList.nil => simp [listNet]
  | StmtList.cons s rest =>
      have h1 := stmtNet_le_one s
      have h2 := listNet_nonpos rest
      simp only [listNet]
      omega

end

mutual

/-- An admissible (non-block) statement nets exactly one record. -/
theorem stmtNet_of_noNested (s : Stmt) (h : stmtNoNestedBlock s = true) :
    stmtNet s = 1 := by
  match s with
  | Stmt.exprStmt _ => rfl
  | Stmt.declPlain _ _ => rfl
  | Stmt.declInit _ _ _ => rfl
  | Stmt.retVoid => rfl
  | Stmt.retExpr _ => rfl
  | Stmt.ifThen _ tb =>
      rw [stmtNoNestedBlock] at h
      rw [stmtNet, listNet_of_noNested tb h]
      simp
  | Stmt.ifThenElse _ tb fb =>
      rw [stmtNoNestedBlock, Bool.and_eq_true] at h
      rw [stmtNet, listNet_of_noNested tb h.1, listNet_of_noNested fb h.2]
      simp
  | Stmt.subBlock body => simp [stmtNoNestedBlock] at h

/-- A child list with no nested blocks nets exactly zero records. -/
theorem listNet_of_noNested (l : StmtList) (h : listNoNestedBlock l = true) :
    listNet l = 0 := by
  match l with
  | StmtList.nil => rfl
  | StmtList.cons s rest =>
      rw [listNoNestedBlock, Bool.and_eq_true] at h
      rw [listNet, stmtNet_of_noNested s h.1, listNet_of_noNested rest h.2]
      simp

end

/-- A successfully traversed root-block child changes the stack height by
its net record count. -/
theorem traverseTopLevel_net (t : TopLevel) :
    ∀ st st', traverseTopLevel t st = some st' →
      (st'.stack.length : Int) = st.stack.length + topLevelNet t := by
  match t with
  | TopLevel.funcDef body =>
      intro st st' h
      rw [traverseTopLevel] at h
      split at h
      · exact absurd h (by simp)
      · rename_i st1 h1
        have ih := traverseBlockStmts_net body _ st1 h1
        simp only [TravState.stack] at ih
        split at h <;>
          (injection h with h
           subst h
           simpa [topLevelNet] using ih)
  | TopLevel.globalDeclPlain typeId sc =>
      intro st st' h
      injection h with h
      subst h
      simp [topLevelNet]
  | TopLevel.globalDeclInit typeId sc init =>
      intro st st' h
      rw [traverseTopLevel] at h
      split at h
      · exact absurd h (by simp)
      · rename_i st1 h1
        have ih := traverseExpr_stack_length init st st1 h1
        split at h
        · exact absurd h (by simp)
        · rename_i initData rest hst
          rw [hst] at ih
          simp only [List.length_cons] at ih
          split at h
          · injection h with h
            subst h
            simp only [topLevelNet]
            omega
          · split at h
            · exact absurd h (by simp)
            · rename_i p hp
              injection h with h
              subst h
              simp only [topLevelNet]
              omega

/-- The root traversal changes the stack height by the sum of the
children's net record counts. -/
theorem traverseRoot_net (prog : List TopLevel) :
    ∀ st st', traverseRoot prog st = some st' →
      (st'.stack.length : Int) = st.stack.length + rootNet prog := by
  induction prog with
  | nil =>
      intro st st' h
      injection h with h
      subst h
      simp [rootNet]
  | cons t rest ih =>
      intro st st' h
      rw [traverseRoot] at h
      split at h
      · exact absurd h (by simp)
      · rename_i st1 h1
        have h2 := traverseTopLevel_net t st st1 h1
        have h3 := ih st1 st' h
        simp only [rootNet]
        omega

/-- The root's net record count is never positive. -/
theorem rootNet_nonpos (prog : List TopLevel) : rootNet prog ≤ 0 := by
  induction prog with
  | nil => simp [rootNet]
  | cons t rest ih =>
      have ht : topLevelNet t ≤ 0 := by
        match t with
        | TopLevel.funcDef body => exact listNet_nonpos body
        | TopLevel.globalDeclPlain _ _ => simp [topLevelNet]
        | TopLevel.globalDeclInit _ _ _ => simp [topLevelNet]
      simp only [rootNet]
      omega


/-- Claim C10, counterexample: for an AST whose function body contains a
block statement directly inside another block, the traversal is not
balanced — the inner block nets zero records while the enclosing block
still pops one per child, so the traversal pops an empty record stack
(undefined behavior on the C++ `std::vector`, modelled as failure) and
never reaches the destructor with an empty stack. -/
theorem traverseRoot_nested_block_underflow :
    traverseRoot
      [TopLevel.funcDef (StmtList.cons
        (Stmt.subBlock (StmtList.cons (Stmt.exprStmt (Expr.constantU 7 3)) StmtList.nil))
        StmtList.nil)]
      ⟨[], Builder.init⟩ = none := by
  rfl

/-- Claim C10 (amended): every successfully traversed expression leaves
exactly one synthesis record; every statement that is not itself a
nested block (recursively, in its if bodies too) leaves exactly one
record for the enclosing block to pop; and whenever the traversal of an
entire AST completes, the record stack is empty — the imbalance caused
by a nested block statement can only make the traversal fail, never
finish with a non-empty stack. -/
theorem traverseRoot_stack_balance :
    (∀ (e : Expr) (st st' : TravState), traverseExpr e st = some st' →
      st'.stack.length = st.stack.length + 1) ∧
    (∀ (s : Stmt) (st st' : TravState), stmtNoNestedBlock s = true →
      traverseStmt s st = some st' → st'.stack.length = st.stack.length + 1) ∧
    (∀ (prog : List TopLevel) (st' : TravState),
      traverseRoot prog ⟨[], Builder.init⟩ = some st' → st'.stack = []) := by
  refine ⟨traverseExpr_stack_length, ?_, ?_⟩
  · intro s st st' hclean h
    have h1 := traverseStmt_net s st st' h
    have h2 := stmtNet_of_noNested s hclean
    omega
  · intro prog st' h
    have h1 := traverseRoot_net prog _ st' h
    have h2 := rootNet_nonpos prog
    simp only [TravState.stack, List.length_nil] at h1
    have h3 : st'.stack.length = 0 := by omega
    exact List.length_eq_zero.mp h3

/-- Claim C8: the pass is deterministic.  The generator is embedded as a
pure function of the input AST: it owns all its state (the builder is
created fresh inside the pass, there are no ambient statics, no
concurrency and no external inputs), so two runs on the same AST produce
identical results, and every run starts from the same initial builder. -/
theorem outputSpirv_deterministic :
    (∀ prog : List TopLevel, outputSpirv prog = outputSpirv prog) ∧
    (∀ prog : List TopLevel,
      outputSpirv prog = (traverseRoot prog ⟨[], Builder.init⟩).map TravState.builder) := by
  exact ⟨fun _ => rfl, fun _ => rfl⟩


/-- Concrete rvalue record with no indices. -/
def c1dRv : NodeData :=
  ⟨5, [], ⟨StorageClass.Max, [], 0, 9, 0, 0, 0, true, 0, BlockStorage.unspecified⟩⟩

/-- Concrete rvalue record with the all-literal index path [2, 0]. -/
def c1dLit : NodeData :=
  ⟨5, [SpirvIdOrLiteral.literal 2, SpirvIdOrLiteral.literal 0],
   ⟨StorageClass.Max, [], 0, 9, 0, 0, 0, true, 0, BlockStorage.unspecified⟩⟩

/-- Concrete rvalue record with a non-literal index (id 4). -/
def c1dSpill : NodeData :=
  ⟨5, [SpirvIdOrLiteral.id 4],
   ⟨StorageClass.Max, [], 0, 9, 0, 0, 0, false, 0, BlockStorage.unspecified⟩⟩

/-- Concrete unindexed lvalue record. -/
def c1dLv : NodeData :=
  ⟨6, [], ⟨StorageClass.Private, [], 0, 9, 0, 0, 0, true, 0, BlockStorage.unspecified⟩⟩

/-- Concrete indexed lvalue record. -/
def c1dLvIdx : NodeData :=
  ⟨6, [SpirvIdOrLiteral.literal 1],
   ⟨StorageClass.Private, [], 0, 9, 0, 0, 0, true, 0, BlockStorage.unspecified⟩⟩

/-- Concrete rvalue record with a pending two-component swizzle. -/
def c1dSwz : NodeData :=
  ⟨5, [], ⟨StorageClass.Max, [1, 0], 0, 9, 8, 0, 0, true, 2, BlockStorage.unspecified⟩⟩

/-- Concrete rvalue record with a pending dynamic component (id 4). -/
def c1dDyn : NodeData :=
  ⟨5, [], ⟨StorageClass.Max, [], 4, 9, 0, 7, 0, true, 0, BlockStorage.unspecified⟩⟩

/-- Witness for the load decision table at concrete records. -/
theorem accessChainLoad_decision_table_witness :
    (accessChainLoad c1dRv Builder.init = some (5, c1dRv, Builder.init)) ∧
    (accessChainLoad c1dLit Builder.init = some (1, c1dLit,
      ⟨2, [], [], [], [], [Instr.opCompositeExtract 9 1 5 [2, 0]], [], [], false⟩)) ∧
    (∃ (pointerId ptrTy : Nat) (idxIds : List Nat) (d2 : NodeData) (b2 : Builder),
      accessChainLoad c1dSpill Builder.init = some (b2.nextId, d2,
        { b2 with
            nextId := b2.nextId + 1
            block := b2.block ++ [Instr.opLoad 9 b2.nextId pointerId] }) ∧
      d2.baseId = 1 ∧
      d2.accessChain.storageClass = StorageClass.Function ∧
      b2.variableDecls = [(1, 9, StorageClass.Function)] ∧
      b2.block = [Instr.opStore 1 5, Instr.opAccessChain ptrTy pointerId 1 idxIds]) ∧
    (∃ (pointerId : Nat) (d1 : NodeData) (b1 : Builder),
      accessChainCollapse c1dLv Builder.init = some (pointerId, d1, b1) ∧
      accessChainLoad c1dLv Builder.init = some (b1.nextId, d1,
        { b1 with
            nextId := b1.nextId + 1
            block := b1.block ++ [Instr.opLoad 9 b1.nextId pointerId] })) ∧
    (accessChainCollapse c1dLv Builder.init = some (6,
      ⟨6, [], ⟨StorageClass.Private, [], 0, 9, 0, 0, 6, true, 0, BlockStorage.unspecified⟩⟩,
      Builder.init)) ∧
    (∃ (pointerId ptrTy : Nat) (b1 : Builder),
      accessChainCollapse c1dLvIdx Builder.init = some (pointerId,
        { c1dLvIdx with
            accessChain := { c1dLvIdx.accessChain with accessChainId := pointerId } },
        b1) ∧
      b1.block = [Instr.opAccessChain ptrTy pointerId 6
        (makeAccessChainIdList c1dLvIdx Builder.init).1]) ∧
    (accessChainLoad c1dSwz Builder.init = some (1, c1dSwz,
      ⟨2, [], [], [], [], [Instr.opVectorShuffle 8 1 5 5 [1, 0]], [], [], false⟩)) ∧
    (accessChainLoad c1dDyn Builder.init = some (1, c1dDyn,
      ⟨2, [], [], [], [], [Instr.opVectorExtractDynamic 7 1 5 4], [], [], false⟩)) := by
  refine ⟨?_, ?_, ?_, ?_, ?_, ?_, ?_, ?_⟩
  · exact (accessChainLoad_decision_table c1dRv Builder.init).1 rfl rfl rfl rfl
  · exact (accessChainLoad_decision_table c1dLit Builder.init).2.1 [2, 0] rfl rfl rfl
      (by decide) rfl rfl
  · exact (accessChainLoad_decision_table c1dSpill Builder.init).2.2.1 rfl rfl (by decide)
      rfl rfl rfl
  · exact (accessChainLoad_decision_table c1dLv Builder.init).2.2.2.1 rfl rfl rfl
  · exact ((accessChainLoad_decision_table c1dLv Builder.init).2.2.2.2.1 (by decide) rfl).1 rfl
  · exact ((accessChainLoad_decision_table c1dLvIdx Builder.init).2.2.2.2.1 (by decide)
      rfl).2 (by decide)
  · exact (accessChainLoad_decision_table c1dSwz Builder.init).2.2.2.2.2.1 rfl rfl
      (by decide) rfl
  · exact (accessChainLoad_decision_table c1dDyn Builder.init).2.2.2.2.2.2 rfl rfl rfl rfl

/-- Concrete lvalue record with a pending swizzle .zx over a 4-vector. -/
def c2dStore : NodeData :=
  ⟨6, [], ⟨StorageClass.Private, [2, 0], 0, 9, 8, 0, 0, true, 4, BlockStorage.unspecified⟩⟩

/-- Witness for the swizzle-store shape and semantics at v = (10,11,12,13)
with v.zx = (20,21): the store emits load, shuffle with mask [5,1,4,3] and
store; unswizzled lane 1 keeps 11, swizzled lane 2 receives 20. -/
theorem accessChainStore_swizzle_semantics_witness :
    (accessChainStore c2dStore 7 Builder.init = some
      (⟨6, [], ⟨StorageClass.Private, [2, 0], 0, 9, 8, 0, 6, true, 4,
        BlockStorage.unspecified⟩⟩,
       ⟨3, [], [], [], [],
        [Instr.opLoad 9 1 6, Instr.opVectorShuffle 8 2 1 7 [5, 1, 4, 3],
         Instr.opStore 6 2], [], [], false⟩)) ∧
    (vectorShuffleEval [10, 11, 12, 13] [20, 21] (storeSwizzleMask 4 [2, 0])).length = 4 ∧
    (vectorShuffleEval [10, 11, 12, 13] [20, 21] (storeSwizzleMask 4 [2, 0])).getD 1 0 = 11 ∧
    (vectorShuffleEval [10, 11, 12, 13] [20, 21] (storeSwizzleMask 4 [2, 0])).getD 2 0 =
      20 := by
  refine ⟨?_, ?_, ?_, ?_⟩
  · exact accessChainStore_swizzle_semantics.1 c2dStore 7 Builder.init (by decide) rfl rfl
      rfl (by decide)
  · exact (accessChainStore_swizzle_semantics.2.1 [10, 11, 12, 13] [20, 21] 4 [2, 0] rfl
      (by decide) (by decide)).1
  · exact (accessChainStore_swizzle_semantics.2.1 [10, 11, 12, 13] [20, 21] 4 [2, 0] rfl
      (by decide) (by decide)).2.1 1 (by decide) (by decide)
  · exact (accessChainStore_swizzle_semantics.2.1 [10, 11, 12, 13] [20, 21] 4 [2, 0] rfl
      (by decide) (by decide)).2.2 0 (by decide)

/-- Concrete indexed lvalue argument (not an unindexed lvalue). -/
def c4arg : NodeData :=
  ⟨6, [SpirvIdOrLiteral.literal 1],
   ⟨StorageClass.Private, [], 0, 9, 0, 0, 0, true, 0, BlockStorage.unspecified⟩⟩

/-- The argument record after its chain has been collapsed and loaded
from the post-declare builder. -/
def c4rec : NodeData :=
  ⟨6, [SpirvIdOrLiteral.literal 1],
   ⟨StorageClass.Private, [], 0, 9, 0, 0, 4, true, 0, BlockStorage.unspecified⟩⟩

/-- Builder state after declaring the temp and loading the argument. -/
def c4bLoad : Builder :=
  ⟨6, [(ConstVal.uint 1, 2)], [(TypeKey.pointer 9 StorageClass.Private, 3)], [],
   [(1, 9, StorageClass.Function)],
   [Instr.opAccessChain 3 4 6 [2], Instr.opLoad 9 5 4], [], [], false⟩

/-- Builder state after loading a Function-class temporary (id 1). -/
def c4bTempLoad : Builder :=
  ⟨2, [], [], [], [], [Instr.opLoad 9 1 1], [], [], false⟩

/-- Witness for the call-lowering table at concrete arguments. -/
theorem createFunctionCall_param_lowering_witness :
    (lowerCallParam ⟨Qualifier.qConst, false, 9⟩ (nodeDataInitRValue 5 9) Builder.init =
      some (⟨⟨Qualifier.qConst, false, 9⟩, nodeDataInitRValue 5 9, 5, 0, 0⟩,
        Builder.init)) ∧
    (callCopyBack ⟨⟨Qualifier.qConst, false, 9⟩, nodeDataInitRValue 5 9, 5, 0, 0⟩
      Builder.init = some Builder.init) ∧
    (lowerCallParam ⟨Qualifier.qIn, false, 9⟩ c4arg Builder.init =
      some (⟨⟨Qualifier.qIn, false, 9⟩, c4rec, 1, 1, 9⟩,
        c4bLoad.emit (Instr.opStore 1 5))) ∧
    (callCopyBack ⟨⟨Qualifier.qIn, false, 9⟩, c4rec, 1, 1, 9⟩ Builder.init =
      some Builder.init) ∧
    (lowerCallParam ⟨Qualifier.qOut, false, 9⟩ c4arg Builder.init =
      some (⟨⟨Qualifier.qOut, false, 9⟩, c4arg, 1, 1, 9⟩,
        ⟨2, [], [], [], [(1, 9, StorageClass.Function)], [], [], [], false⟩)) ∧
    (lowerCallParam ⟨Qualifier.qInOut, false, 9⟩ c4arg Builder.init =
      some (⟨⟨Qualifier.qInOut, false, 9⟩, c4rec, 1, 1, 9⟩,
        c4bLoad.emit (Instr.opStore 1 5))) ∧
    (callCopyBack ⟨⟨Qualifier.qOut, false, 9⟩, c4arg, 1, 1, 9⟩ Builder.init =
      (accessChainStore c4arg 1 c4bTempLoad).map (fun p => p.2)) := by
  refine ⟨?_, ?_, ?_, ?_, ?_, ?_, ?_⟩
  · exact (createFunctionCall_param_lowering ⟨Qualifier.qConst, false, 9⟩
      (nodeDataInitRValue 5 9) Builder.init).1 (Or.inr (Or.inl rfl)) 5
      (nodeDataInitRValue 5 9) Builder.init rfl
  · exact (createFunctionCall_param_lowering ⟨Qualifier.qConst, false, 9⟩
      (nodeDataInitRValue 5 9) Builder.init).2.1
      ⟨⟨Qualifier.qConst, false, 9⟩, nodeDataInitRValue 5 9, 5, 0, 0⟩ rfl
  · exact (createFunctionCall_param_lowering ⟨Qualifier.qIn, false, 9⟩ c4arg
      Builder.init).2.2.1 rfl rfl (by decide) 5 c4rec c4bLoad rfl
  · exact (createFunctionCall_param_lowering ⟨Qualifier.qIn, false, 9⟩ c4arg
      Builder.init).2.2.2.1 ⟨⟨Qualifier.qIn, false, 9⟩, c4rec, 1, 1, 9⟩ rfl
  · exact (createFunctionCall_param_lowering ⟨Qualifier.qOut, false, 9⟩ c4arg
      Builder.init).2.2.2.2.1 rfl rfl (by decide)
  · exact (createFunctionCall_param_lowering ⟨Qualifier.qInOut, false, 9⟩ c4arg
      Builder.init).2.2.2.2.2.1 rfl rfl (by decide) 5 c4rec c4bLoad rfl
  · exact (createFunctionCall_param_lowering ⟨Qualifier.qOut, false, 9⟩ c4arg
      Builder.init).2.2.2.2.2.2 ⟨⟨Qualifier.qOut, false, 9⟩, c4arg, 1, 1, 9⟩
      (by decide) (Or.inl rfl) 1
      ⟨1, [], ⟨StorageClass.Function, [], 0, 9, 0, 0, 1, true, 0,
        BlockStorage.unspecified⟩⟩
      c4bTempLoad rfl

/-- Witness for the atomic contract: atomicMin on a uint counter and
atomicCompSwap, at concrete arguments. -/
theorem createAtomicBuiltIn_contract_witness :
    (∃ (result : Nat) (b2 : Builder),
      createAtomicBuiltIn AtomicOp.min true 9 [c1dLv, nodeDataInitRValue 5 9]
        Builder.init = some (result, b2) ∧
      b2.block = [Instr.opAtomic AtomicOpcode.UMin 9 result 6
        (Builder.init.getUintConstant scopeDevice).1
        ((Builder.init.getUintConstant scopeDevice).2.getUintConstant
          memorySemanticsMaskNone).1 5]) ∧
    (∃ (result : Nat) (b3 : Builder),
      createAtomicBuiltIn AtomicOp.compSwap true 9
        [c1dLv, nodeDataInitRValue 5 9, nodeDataInitRValue 7 9] Builder.init =
        some (result, b3) ∧
      b3.block = [Instr.opAtomicCompareExchange 9 result 6
        (Builder.init.getUintConstant scopeDevice).1
        ((Builder.init.getUintConstant scopeDevice).2.getUintConstant
          memorySemanticsMaskNone).1
        ((Builder.init.getUintConstant scopeDevice).2.getUintConstant
          memorySemanticsMaskNone).1
        7 5]) := by
  constructor
  · exact createAtomicBuiltIn_contract.1 AtomicOp.min true 9 c1dLv
      (nodeDataInitRValue 5 9) Builder.init AtomicOpcode.UMin rfl 6
      ⟨6, [], ⟨StorageClass.Private, [], 0, 9, 0, 0, 6, true, 0,
        BlockStorage.unspecified⟩⟩
      Builder.init rfl 5 (nodeDataInitRValue 5 9) Builder.init rfl
  · exact createAtomicBuiltIn_contract.2.1 true 9 c1dLv (nodeDataInitRValue 5 9)
      (nodeDataInitRValue 7 9) Builder.init 6
      ⟨6, [], ⟨StorageClass.Private, [], 0, 9, 0, 0, 6, true, 0,
        BlockStorage.unspecified⟩⟩
      Builder.init rfl 5 (nodeDataInitRValue 5 9) Builder.init rfl 7
      (nodeDataInitRValue 7 9) Builder.init rfl

/-- Witness for the store-path safety at a concrete lvalue record. -/
theorem accessChainStore_assertions_unreachable_witness :
    ((accessChainPushDynamicComponent c1dLv 4 8 Builder.init).1.accessChain.dynamicComponent
      = 0) ∧
    ((accessChainPushSwizzle c1dLv [1, 0] 8 4).accessChain.swizzles.length ≠ 1) ∧
    (∃ r, accessChainStore c1dLv 7 Builder.init = some r) := by
  refine ⟨?_, ?_, ?_⟩
  · exact (accessChainStore_assertions_unreachable c1dLv 7 4 8 Builder.init).1 (by decide)
  · exact (accessChainStore_assertions_unreachable c1dLv 7 4 8 Builder.init).2.1 [1, 0] 4
      rfl
  · exact (accessChainStore_assertions_unreachable c1dLv 7 4 8 Builder.init).2.2
      (by decide) rfl (by decide)

/-- Witness for the identity-swizzle no-op: v.xyz on a 3-vector rvalue. -/
theorem visitSwizzle_identity_noop_witness :
    visitSwizzlePost (nodeDataInitRValue 5 9) [0, 1, 2] 8 3 = nodeDataInitRValue 5 9 ∧
    accessChainLoad (visitSwizzlePost (nodeDataInitRValue 5 9) [0, 1, 2] 8 3)
      Builder.init = accessChainLoad (nodeDataInitRValue 5 9) Builder.init :=
  (visitSwizzle_identity_noop (nodeDataInitRValue 5 9) [0, 1, 2] 8 3 Builder.init).2
    (by decide)

/-- Witness for the stack balance at concrete inputs: a constant
expression pushes one record, an expression statement nets one record,
and a whole program (an empty main) finishes with an empty stack. -/
theorem traverseRoot_stack_balance_witness :
    ((TravState.mk [nodeDataInitRValue 7 3] Builder.init).stack.length =
      (TravState.mk [] Builder.init).stack.length + 1) ∧
    ((TravState.mk [nodeDataInitRValue 7 3] Builder.init).stack.length =
      (TravState.mk [] Builder.init).stack.length + 1) ∧
    ((TravState.mk []
        ⟨2, [], [], [], [], [], [[Instr.opReturn]], [], true⟩).stack = []) := by
  refine ⟨?_, ?_, ?_⟩
  · exact traverseRoot_stack_balance.1 (Expr.constantU 7 3) ⟨[], Builder.init⟩
      ⟨[nodeDataInitRValue 7 3], Builder.init⟩ rfl
  · exact traverseRoot_stack_balance.2.1 (Stmt.exprStmt (Expr.constantU 7 3))
      ⟨[], Builder.init⟩ ⟨[nodeDataInitRValue 7 3], Builder.init⟩ rfl rfl
  · exact traverseRoot_stack_balance.2.2 [TopLevel.funcDef StmtList.nil]
      ⟨[], ⟨2, [], [], [], [], [], [[Instr.opReturn]], [], true⟩⟩ rfl

end AngleSpirv
